import Mathlib

/-!
Verification development for the lightNVR MP4 writer
(`src/video/mp4_writer.c`): a shallow embedding of the segment recorder
`record_segment`, of the supervisor thread `mp4_writer_rtsp_thread`
(configuration resolution, segment rotation, retry/backoff), and of
`mp4_writer_is_recording`, together with theorems about timestamp
invariants, the overflow guard, rotation and cleanup behaviour.

Timestamps (`int64_t` with the sentinel `AV_NOPTS_VALUE` guarded at every
use site in the C code) are embedded as `Option Int`; wall-clock values
from `av_gettime` are microsecond `Int` inputs carried by each loop event.
Results of calls into FFmpeg and the database (open, write, stat, insert)
are environment inputs, since those collaborators are external to the file.
-/

namespace Mp4Writer

/-- FFmpeg `AVERROR_EOF`. -/
def averrorEof : Int := -541478725

/-- MP4 signed 32-bit timestamp limit `0x7fffffff` (2^31 - 1), from the
`pkt.dts > 0x7fffffff` checks in `record_segment`. -/
def mp4DtsLimit : Int := 2147483647

/-- Preemptive safety threshold `0x70000000` ("~75% of max value"). -/
def mp4DtsSafe : Int := 1879048192

inductive StreamKind
  | video
  | audio
  | other
deriving DecidableEq, Repr, Inhabited

/-- One demuxed packet: `AVPacket` fields used by `record_segment`.
`dts`/`pts` are `none` when the C value is `AV_NOPTS_VALUE`. -/
structure Pkt where
  stream : StreamKind
  dts : Option Int
  pts : Option Int
  isKey : Bool
  duration : Int
  size : Int
deriving DecidableEq, Repr, Inhabited

/-- Per-stream constants read from the input `AVStream` (frame rate,
sample rate, channel layout) plus the results of the `av_rescale_q`
library calls, which depend only on those constants (and, for audio,
on the sample count). -/
structure Cfg where
  frameRateValid : Bool
  videoFrameDur : Int
  sampleRate : Int
  nbChannels : Int
  bitsPerCodedSample : Int
  audioDurOfSamples : Int → Int

/-- `segment_info_t`. -/
structure SegmentInfo where
  segmentIndex : Int
  hasAudio : Bool
  lastFrameWasKey : Bool
deriving DecidableEq, Repr, Inhabited

/-- First-timestamp capture (`if (first_dts == AV_NOPTS_VALUE && pkt.dts !=
AV_NOPTS_VALUE) { first_dts = pkt.dts; first_pts = pkt.pts != AV_NOPTS_VALUE ?
pkt.pts : pkt.dts; }`), shared by the video and audio branches. -/
def initFirstTs (fd fp : Option Int) (p : Pkt) : Option Int × Option Int :=
  match fd, p.dts with
  | none, some d => (some d, some (p.pts.getD d))
  | _, _ => (fd, fp)

/-- Timestamp rebasing by segment index: segment 0 subtracts the first
observed timestamp and clamps at 0; later segments use the relative
timestamp plus a fixed offset of 1. -/
def rebaseTs (segIdx : Int) (fd fp : Option Int) (p : Pkt) : Pkt :=
  if segIdx = 0 then
    let p1 :=
      match p.dts, fd with
      | some d, some f => { p with dts := some (if d - f < 0 then 0 else d - f) }
      | _, _ => p
    match p1.pts, fp with
    | some t, some f => { p1 with pts := some (if t - f < 0 then 0 else t - f) }
    | _, _ => p1
  else
    let p1 :=
      match p.dts, fd with
      | some d, some f => { p with dts := some (d - f + 1) }
      | _, _ => p
    match p1.pts, fp with
    | some t, some f => { p1 with pts := some (t - f + 1) }
    | _, _ => p1

/-- PTS >= DTS enforcement (`if (pkt.pts != AV_NOPTS_VALUE && pkt.dts !=
AV_NOPTS_VALUE && pkt.pts < pkt.dts) pkt.pts = pkt.dts;`). -/
def fixPtsDts (p : Pkt) : Pkt :=
  match p.pts, p.dts with
  | some t, some d => if t < d then { p with pts := some d } else p
  | _, _ => p

/-- The DTS overflow guard: reset to 1000 above `0x7fffffff` (recomputing
the PTS-DTS difference only after DTS has already been reset), then a
preemptive reset above `0x70000000` that sets PTS to DTS + 1. -/
def overflowGuard (p : Pkt) : Pkt :=
  match p.dts with
  | none => p
  | some d0 =>
    let p1 :=
      if d0 > mp4DtsLimit then
        let q := { p with dts := some 1000 }
        match q.pts with
        | some t =>
          let diff := t - 1000
          if diff ≥ 0 then { q with pts := some (1000 + diff) }
          else { q with pts := some 1000 }
        | none => { q with pts := some 1000 }
      else p
    match p1.dts with
    | some d1 =>
      if d1 > mp4DtsSafe then
        let q := { p1 with dts := some 1000 }
        match q.pts with
        | some _ => { q with pts := some 1001 }
        | none => { q with pts := some 1000 }
      else p1
    | none => p1

/-- Packet-duration cap (`if (pkt.duration > 10000000) pkt.duration = 90000;`),
applied only on the final-keyframe video write path. -/
def capVideoDuration (p : Pkt) : Pkt :=
  if p.duration > 10000000 then { p with duration := 90000 } else p

/-- `AV_NOPTS_VALUE` as a raw `int64_t`, for the duration checks that compare
the raw field. -/
def avNoPtsRaw : Int := -9223372036854775808

/-- Video duration synthesis from the average frame rate. -/
def synthVideoDuration (cfg : Cfg) (p : Pkt) : Pkt :=
  if p.duration = 0 ∨ p.duration = avNoPtsRaw then
    if cfg.frameRateValid then { p with duration := cfg.videoFrameDur }
    else { p with duration := 1 }
  else p

/-- Audio duration synthesis from sample count (derived from packet size,
channel count and bytes per sample, defaulting to 1024 samples). -/
def synthAudioDuration (cfg : Cfg) (p : Pkt) : Pkt :=
  if p.duration = 0 ∨ p.duration = avNoPtsRaw then
    if cfg.sampleRate > 0 then
      let bytesPerSample := Int.tdiv cfg.bitsPerCodedSample 8
      let nbSamples :=
        if cfg.nbChannels > 0 ∧ cfg.bitsPerCodedSample > 0 ∧ bytesPerSample > 0 then
          Int.tdiv p.size (cfg.nbChannels * bytesPerSample)
        else 0
      if nbSamples > 0 then { p with duration := cfg.audioDurOfSamples nbSamples }
      else { p with duration := cfg.audioDurOfSamples 1024 }
    else { p with duration := 1 }
  else p

/-- Audio strict-monotonicity enforcement against the previously written
audio packet, followed by the PTS >= DTS re-check (the body of the
`if (audio_packet_count > 0)` block). -/
def audioMonotonic (lastDts lastPts : Int) (p : Pkt) : Pkt :=
  let p1 :=
    match p.dts with
    | some d => if d ≤ lastDts then { p with dts := some (lastDts + 1) } else p
    | none => p
  let p2 :=
    match p1.pts with
    | some t => if t ≤ lastPts then { p1 with pts := some (lastPts + 1) } else p1
    | none => p1
  fixPtsDts p2

/-- Result of one `av_read_frame` call. `again` is `AVERROR(EAGAIN)` (sleep
10 ms and retry); `err` is any other negative code. -/
inductive ReadRes
  | eof
  | again
  | err (code : Int)
  | ok (p : Pkt)
deriving DecidableEq, Repr, Inhabited

/-- One iteration of the main recording loop, as observed from the outside:
the current `av_gettime` value, the `is_shutdown_initiated()` poll, the
result of `av_read_frame`, and whether `av_interleaved_write_frame` would
succeed for a packet written this iteration. -/
structure InEvent where
  now : Int
  shutdown : Bool
  writeOk : Bool
  read : ReadRes
deriving DecidableEq, Repr, Inhabited

/-- A packet as submitted to `av_interleaved_write_frame`, tagged with the
output stream it was routed to and whether it was written by the
final-keyframe branch (the write that ends the segment). -/
structure OutPkt where
  stream : StreamKind
  pkt : Pkt
  final : Bool
deriving DecidableEq, Repr, Inhabited

/-- All local state of `record_segment`'s main loop, plus the function-static
`waiting_start_time` (which in the C source persists across invocations)
and the caller's `prev_segment_info`. -/
structure RecSt where
  foundFirstKeyframe : Bool
  waiting : Bool
  shutdownDetected : Bool
  startTime : Int
  waitingStartTime : Int
  firstVideoDts : Option Int
  firstVideoPts : Option Int
  firstAudioDts : Option Int
  firstAudioPts : Option Int
  lastVideoDts : Int
  lastVideoPts : Int
  lastAudioDts : Int
  lastAudioPts : Int
  videoCount : Nat
  audioCount : Nat
  prevInfo : Option SegmentInfo
deriving DecidableEq, Repr, Inhabited

/-- Loop-constant data: the stream configuration, whether an output audio
stream exists (`has_audio && audio_stream_idx >= 0 && out_audio_stream`),
the requested duration, and the segment index. -/
structure LoopCtx where
  cfg : Cfg
  audioEnabled : Bool
  duration : Int
  segIdx : Int

/-- Top-of-loop checks: shutdown poll and duration-limit check, both of
which switch the loop into the final-keyframe-waiting state. -/
def checkFlags (duration : Int) (s : RecSt) (e : InEvent) : RecSt :=
  let s1 :=
    if !s.shutdownDetected && !s.waiting && e.shutdown then
      { s with waiting := true, shutdownDetected := true }
    else s
  if duration > 0 ∧ s1.waiting = false ∧ s1.shutdownDetected = false then
    let elapsed := Int.tdiv (e.now - s1.startTime) 1000000
    if elapsed ≥ duration then { s1 with waiting := true }
    else if elapsed ≥ duration - 1 then { s1 with waiting := true }
    else s1
  else s1

/-- `last_video_dts` / `last_video_pts` update. -/
def updateLastVideo (s : RecSt) (q : Pkt) : RecSt :=
  let s1 := match q.dts with | some d => { s with lastVideoDts := d } | none => s
  match q.pts with | some t => { s1 with lastVideoPts := t } | none => s1

/-- `last_audio_dts` / `last_audio_pts` update. -/
def updateLastAudio (s : RecSt) (q : Pkt) : RecSt :=
  let s1 := match q.dts with | some d => { s with lastAudioDts := d } | none => s
  match q.pts with | some t => { s1 with lastAudioPts := t } | none => s1

/-- The ordinary video write path (rebase, PTS >= DTS fix, last-timestamp
update, duration synthesis, write). Note: no overflow guard and no
duration cap on this path. -/
def normalVideo (c : LoopCtx) (s : RecSt) (e : InEvent) (p : Pkt) :
    RecSt × List OutPkt × Option Int :=
  let fdfp := initFirstTs s.firstVideoDts s.firstVideoPts p
  let s1 := { s with firstVideoDts := fdfp.1, firstVideoPts := fdfp.2 }
  let q1 := fixPtsDts (rebaseTs c.segIdx fdfp.1 fdfp.2 p)
  let s2 := updateLastVideo s1 q1
  let q2 := synthVideoDuration c.cfg q1
  let s3 := if e.writeOk then { s2 with videoCount := s2.videoCount + 1 } else s2
  (s3, [⟨StreamKind.video, q2, false⟩], none)

/-- The final-keyframe write: record whether the last frame was a
keyframe, rebase, fix PTS, apply the overflow guard and duration cap,
update the last timestamps, synthesize the duration, write, and break the
loop with the write's result. -/
def finalVideo (c : LoopCtx) (s : RecSt) (e : InEvent) (p : Pkt) :
    RecSt × List OutPkt × Option Int :=
  let s3 :=
    { s with prevInfo :=
        s.prevInfo.map fun pi : SegmentInfo => { pi with lastFrameWasKey := p.isKey } }
  let fdfp := initFirstTs s3.firstVideoDts s3.firstVideoPts p
  let s4 := { s3 with firstVideoDts := fdfp.1, firstVideoPts := fdfp.2 }
  let q1 := overflowGuard (fixPtsDts (rebaseTs c.segIdx fdfp.1 fdfp.2 p))
  let q2 := capVideoDuration q1
  let s5 := updateLastVideo s4 q2
  let q3 := synthVideoDuration c.cfg q2
  (s5, [⟨StreamKind.video, q3, true⟩], some (if e.writeOk then 0 else -1))

/-- Processing of a packet on the video stream: first-keyframe gate
(with the immediate-start exception when the previous segment ended on a
keyframe), the final-keyframe branch (which applies the overflow guard and
duration cap, writes, and breaks the loop), else the ordinary path. -/
def stepVideo (c : LoopCtx) (s : RecSt) (e : InEvent) (p : Pkt) :
    RecSt × List OutPkt × Option Int :=
  match
    (if s.foundFirstKeyframe then some s
     else if (s.prevInfo.elim false fun pi => pi.lastFrameWasKey) && decide (c.segIdx > 0) then
       some { s with foundFirstKeyframe := true, startTime := e.now }
     else if p.isKey then
       some { s with foundFirstKeyframe := true, startTime := e.now }
     else none)
  with
  | none => (s, [], none)
  | some s1 =>
    if s1.waiting then
      let s2 := if s1.waitingStartTime = 0 then { s1 with waitingStartTime := e.now } else s1
      let waitTime := Int.tdiv (e.now - s2.waitingStartTime) 1000000
      if p.isKey ∨ waitTime > 2 then finalVideo c s2 e p
      else normalVideo c s2 e p
    else normalVideo c s1 e p

/-- Processing of a packet on the audio stream: dropped before the first
video keyframe; otherwise rebase, monotonicity enforcement (only after the
first written audio packet), overflow guard, last-timestamp update,
duration synthesis, write. -/
def stepAudio (c : LoopCtx) (s : RecSt) (e : InEvent) (p : Pkt) :
    RecSt × List OutPkt × Option Int :=
  if !s.foundFirstKeyframe then (s, [], none)
  else
    let fdfp := initFirstTs s.firstAudioDts s.firstAudioPts p
    let s1 := { s with firstAudioDts := fdfp.1, firstAudioPts := fdfp.2 }
    let q1 := rebaseTs c.segIdx fdfp.1 fdfp.2 p
    let q2 := if s1.audioCount > 0 then audioMonotonic s1.lastAudioDts s1.lastAudioPts q1 else q1
    let q3 := overflowGuard q2
    let s2 := updateLastAudio s1 q3
    let q4 := synthAudioDuration c.cfg q3
    let s3 := if e.writeOk then { s2 with audioCount := s2.audioCount + 1 } else s2
    (s3, [⟨StreamKind.audio, q4, false⟩], none)

/-- One iteration of the main recording loop. The third component is
`some ret` when the loop breaks (end of stream, read error, or the final
packet was written). -/
def step (c : LoopCtx) (s : RecSt) (e : InEvent) : RecSt × List OutPkt × Option Int :=
  let s0 := checkFlags c.duration s e
  match e.read with
  | ReadRes.eof => (s0, [], some averrorEof)
  | ReadRes.err code => (s0, [], some code)
  | ReadRes.again => (s0, [], none)
  | ReadRes.ok p =>
    match p.stream with
    | StreamKind.video => stepVideo c s0 e p
    | StreamKind.audio => if c.audioEnabled then stepAudio c s0 e p else (s0, [], none)
    | StreamKind.other => (s0, [], none)

/-- The main recording loop over a finite trace of read events. Returns the
final state, all packets submitted to the writer, and `some ret` if the
loop broke (`none` if the trace ended with the loop still running). -/
def runLoop (c : LoopCtx) : RecSt → List InEvent → RecSt × List OutPkt × Option Int
  | s, [] => (s, [], none)
  | s, e :: es =>
    match step c s e with
    | (s1, outs, some r) => (s1, outs, some r)
    | (s1, outs, none) =>
      let t := runLoop c s1 es
      (t.1, outs ++ t.2.1, t.2.2)

/-- Environment for one `record_segment` invocation: results of the calls
into FFmpeg that happen before the loop, the initial `av_gettime`, the
result of `av_write_trailer`, and the read-event trace. -/
structure Env where
  inputProvided : Bool
  openOk : Bool
  findStreamOk : Bool
  hasVideoStream : Bool
  hasAudioStream : Bool
  allocOutputOk : Bool
  newVideoStreamOk : Bool
  copyVideoParamsOk : Bool
  newAudioStreamOk : Bool
  copyAudioParamsOk : Bool
  avioOpenOk : Bool
  writeHeaderOk : Bool
  startTime : Int
  trailerOk : Bool
  events : List InEvent
deriving Repr, Inhabited

/-- Observable outcome of one `record_segment` invocation. -/
structure Outcome where
  ret : Int
  prevInfo : Option SegmentInfo
  written : List OutPkt
  trailerCalls : Nat
  pbOpened : Bool
  pbClosed : Bool
  inputSlotFilled : Bool
  waitingStatic : Int
  reachedLoop : Bool
deriving DecidableEq, Repr, Inhabited

/-- Outcome of a failure before the packet-copying loop (`goto cleanup`). -/
def earlyFail (ret : Int) (prev : Option SegmentInfo) (slot : Bool) (wst : Int)
    (pbO pbC : Bool) : Outcome :=
  { ret := ret, prevInfo := prev, written := [], trailerCalls := 0,
    pbOpened := pbO, pbClosed := pbC, inputSlotFilled := slot,
    waitingStatic := wst, reachedLoop := false }

/-- The `goto cleanup` chain before the packet-copying loop: `some o` when
one of the pre-loop library calls failed (in source order), `none` when
the invocation reaches the loop. -/
def preLoopFail (env : Env) (hasAudio : Bool) (prev : Option SegmentInfo) (wst : Int) :
    Option Outcome :=
  if !env.inputProvided && !env.openOk then
    some (earlyFail (-5) prev false wst false false)
  else if !env.inputProvided && !env.findStreamOk then
    some (earlyFail (-6) prev false wst false false)
  else if !env.hasVideoStream then
    some (earlyFail (-1) prev true wst false false)
  else if !env.allocOutputOk then
    some (earlyFail (-7) prev true wst false false)
  else if !env.newVideoStreamOk then
    some (earlyFail (-1) prev true wst false false)
  else if !env.copyVideoParamsOk then
    some (earlyFail (-8) prev true wst false false)
  else if hasAudio && env.hasAudioStream && !env.newAudioStreamOk then
    some (earlyFail (-1) prev true wst false false)
  else if hasAudio && env.hasAudioStream && !env.copyAudioParamsOk then
    some (earlyFail (-9) prev true wst false false)
  else if !env.avioOpenOk then
    some (earlyFail (-10) prev true wst false false)
  else if !env.writeHeaderOk then
    some (earlyFail (-11) prev true wst true true)
  else none

/-- `segment_index = prev_segment_info ? prev_segment_info->segment_index + 1 : 0`. -/
def segIdxOf (prev : Option SegmentInfo) : Int :=
  match prev with
  | some pi => pi.segmentIndex + 1
  | none => 0

/-- The loop-constant context of one invocation. -/
def loopCtxOf (cfg : Cfg) (env : Env) (duration : Int) (hasAudio : Bool)
    (prev : Option SegmentInfo) : LoopCtx :=
  { cfg := cfg, audioEnabled := hasAudio && env.hasAudioStream,
    duration := duration, segIdx := segIdxOf prev }

/-- The loop state at entry to the main loop. -/
def initStateOf (env : Env) (prev : Option SegmentInfo) (wst : Int) : RecSt :=
  { foundFirstKeyframe := false, waiting := false, shutdownDetected := false,
    startTime := env.startTime, waitingStartTime := wst,
    firstVideoDts := none, firstVideoPts := none,
    firstAudioDts := none, firstAudioPts := none,
    lastVideoDts := 0, lastVideoPts := 0, lastAudioDts := 0, lastAudioPts := 0,
    videoCount := 0, audioCount := 0, prevInfo := prev }

/-- The tail of `record_segment` after the loop broke: main-path trailer
write (overwriting `ret`), `prev_segment_info` update, and the cleanup
block with its conditional second trailer attempt and `avio_closep`. -/
def loopOutcome (env : Env) (hasAudio : Bool) (prev : Option SegmentInfo)
    (s1 : RecSt) (outs : List OutPkt) : Outcome :=
  let retTrailer : Int := if env.trailerOk then 0 else -1
  let trailerWritten := env.trailerOk
  let prev2 := s1.prevInfo.map fun pi : SegmentInfo =>
    { pi with segmentIndex := segIdxOf prev, hasAudio := hasAudio && env.hasAudioStream }
  let cleanupTrailer : Nat := if retTrailer ≥ 0 ∧ trailerWritten = false then 1 else 0
  { ret := retTrailer, prevInfo := prev2, written := outs,
    trailerCalls := 1 + cleanupTrailer, pbOpened := true, pbClosed := true,
    inputSlotFilled := true, waitingStatic := s1.waitingStartTime,
    reachedLoop := true }

/-- `record_segment`. `prev` is `*prev_segment_info` (or `none` for a NULL
pointer); `wst` is the incoming value of the function-static
`waiting_start_time`. The result is `none` when the event trace ends with
the loop still running (the call has not returned). -/
def recordSegment (cfg : Cfg) (env : Env) (duration : Int) (hasAudio : Bool)
    (prev : Option SegmentInfo) (wst : Int) : Option Outcome :=
  match preLoopFail env hasAudio prev wst with
  | some o => some o
  | none =>
    match runLoop (loopCtxOf cfg env duration hasAudio prev)
        (initStateOf env prev wst) env.events with
    | (_, _, none) => none
    | (s1, outs, some _) => some (loopOutcome env hasAudio prev s1 outs)

/-- Whether an invocation with this environment reaches the packet-copying
loop (all pre-loop library calls succeed, mirroring the guard chain of
`recordSegment`). -/
def reachesLoop (env : Env) (hasAudio : Bool) : Bool :=
  if !env.inputProvided && !env.openOk then false
  else if !env.inputProvided && !env.findStreamOk then false
  else if !env.hasVideoStream then false
  else if !env.allocOutputOk then false
  else if !env.newVideoStreamOk then false
  else if !env.copyVideoParamsOk then false
  else if hasAudio && env.hasAudioStream && !env.newAudioStreamOk then false
  else if hasAudio && env.hasAudioStream && !env.copyAudioParamsOk then false
  else if !env.avioOpenOk then false
  else if !env.writeHeaderOk then false
  else true

/-- The Writer fields read and written by the supervisor thread
`mp4_writer_rtsp_thread`. -/
structure WriterSt where
  segmentDuration : Int
  hasAudio : Bool
  outputDir : String
  outputPath : String
  currentRecordingId : Nat
  lastRotationTime : Int
  lastPacketTime : Int
deriving DecidableEq, Repr, Inhabited

/-- The stream configuration row returned by `get_stream_config_by_name`. -/
structure DbCfg where
  segmentDuration : Int
  recordAudio : Bool
deriving DecidableEq, Repr, Inhabited

/-- Environment of one supervisor-loop iteration: current wall-clock time,
the configuration-store lookup (`none` when `get_stream_config_by_name`
fails), the id returned by `add_recording_metadata` during rotation
(0 = failure), the `stat` of the previous output file during rotation, and
the formatted timestamp used for the new file name. -/
structure IterEnv where
  now : Int
  dbConfig : Option DbCfg
  addResult : Nat
  statResult : Option Nat
  newPathTimestamp : String
deriving DecidableEq, Repr, Inhabited

/-- A call into the recordings catalog (`add_recording_metadata` /
`update_recording_metadata`). -/
inductive CatalogOp
  | add (path : String) (startTime : Int)
  | update (id : Nat) (endTime : Int) (size : Nat) (complete : Bool)
deriving DecidableEq, Repr, Inhabited

/-- Per-iteration configuration re-read: adopt the database segment duration
when positive, and the database audio flag whenever the row exists. Returns
the updated Writer and the local `segment_duration` variable. -/
def resolveConfig (w : WriterSt) (env : IterEnv) : WriterSt × Int :=
  match env.dbConfig with
  | none => (w, w.segmentDuration)
  | some db =>
    let pair :=
      if db.segmentDuration > 0 then
        ({ w with segmentDuration := db.segmentDuration }, db.segmentDuration)
      else (w, w.segmentDuration)
    let w1 := pair.1
    let w2 := if w1.hasAudio ≠ db.recordAudio then { w1 with hasAudio := db.recordAudio } else w1
    (w2, pair.2)

/-- The rotation block: when the segment duration is positive and has
elapsed since the last rotation, build the new path, add a catalog record
for it, finalize the previous record (size from `stat`, or 0 on stat
failure), switch the Writer's output path, adopt the new recording id only
when the add succeeded, and update the rotation time. Returns the updated
Writer, the catalog calls made (in order), and whether rotation happened. -/
def rotationCheck (w : WriterSt) (env : IterEnv) (segDur : Int) :
    WriterSt × List CatalogOp × Bool :=
  if segDur > 0 ∧ env.now - w.lastRotationTime ≥ segDur then
    let newPath := w.outputDir ++ "/recording_" ++ env.newPathTimestamp ++ ".mp4"
    let addOp := CatalogOp.add newPath env.now
    let finalizeOps :=
      if w.currentRecordingId > 0 then
        match env.statResult with
        | some size => [CatalogOp.update w.currentRecordingId env.now size true]
        | none => [CatalogOp.update w.currentRecordingId env.now 0 true]
      else []
    let w1 := { w with outputPath := newPath }
    let w2 := if env.addResult > 0 then { w1 with currentRecordingId := env.addResult } else w1
    let w3 := { w2 with lastRotationTime := env.now }
    (w3, addOp :: finalizeOps, true)
  else (w, [], false)

/-- Duration passed to `record_segment`: the resolved segment duration when
positive, else the hard-coded default of 30 seconds. -/
def effectiveDuration (segDur : Int) : Int :=
  if segDur > 0 then segDur else 30

/-- The post-segment interim metadata update: when a current recording id
exists and `stat` on the output path succeeds, update that record's size
without marking it complete (`update_recording_metadata(id, 0, size,
false)`). -/
def interimUpdate (w : WriterSt) (statSize : Option Nat) : List CatalogOp :=
  if w.currentRecordingId > 0 then
    match statSize with
    | some size => [CatalogOp.update w.currentRecordingId 0 size false]
    | none => []
  else []

/-- Result of the configuration/rotation part of one supervisor iteration. -/
structure IterResult where
  w : WriterSt
  ops : List CatalogOp
  rotated : Bool
  passedDuration : Int
deriving DecidableEq, Repr, Inhabited

/-- Configuration re-read, rotation check, and duration defaulting of one
supervisor-loop iteration. -/
def superviseStep (w : WriterSt) (env : IterEnv) : IterResult :=
  let r := resolveConfig w env
  let rc := rotationCheck r.1 env r.2
  { w := rc.1, ops := rc.2.1, rotated := rc.2.2, passedDuration := effectiveDuration r.2 }

/-- The supervisor loop over a trace of iteration environments. -/
def superviseRun : WriterSt → List IterEnv → WriterSt × List IterResult
  | w, [] => (w, [])
  | w, env :: rest =>
    let st := superviseStep w env
    let t := superviseRun st.w rest
    (t.1, st :: t.2)

/-- The retry backoff computed after a failed `record_segment`: exponential
in the current retry count, capped, then the count is incremented, and
after more than 5 consecutive failures the input connection is forcibly
closed and the backoff set to 5 seconds. Returns (new count, backoff
seconds, forced reconnect). -/
def backoffOnFailure (retryCount : Nat) : Nat × Nat × Bool :=
  let b := 1 <<< (if retryCount > 4 then 4 else retryCount)
  let b1 := if b > 30 then 30 else b
  let newCount := retryCount + 1
  if newCount > 5 then (newCount, 5, true) else (newCount, b1, false)

/-- A session (Writer/worker) identifier, for reasoning about two streams
recording concurrently in one process. -/
inductive SessionId
  | a
  | b
deriving DecidableEq, Repr, Inhabited

/-- Backoff results when the retry counter is the function-static
`segment_retry_count` of `mp4_writer_rtsp_thread`: a single process-wide
counter threaded through every session's failures in order. -/
def sharedBackoffs : Nat → List SessionId → List (SessionId × Nat × Bool)
  | _, [] => []
  | c, sid :: rest =>
    let r := backoffOnFailure c
    (sid, r.2.1, r.2.2) :: sharedBackoffs r.1 rest

/-- Modelled from the spec: worker-local retry counters, one per session
("The retry-counter may be a worker-local value; it must NOT be a
process-wide shared counter"). Each session's backoff is computed from its
own count of consecutive failures only. -/
def perWorkerBackoffs : (SessionId → Nat) → List SessionId → List (SessionId × Nat × Bool)
  | _, [] => []
  | cnt, sid :: rest =>
    let r := backoffOnFailure (cnt sid)
    (sid, r.2.1, r.2.2) :: perWorkerBackoffs (fun x => if x = sid then r.1 else cnt x) rest

/-- `mp4_writer_thread_t` as seen by `mp4_writer_is_recording`. -/
structure ThreadCtx where
  running : Int
deriving DecidableEq, Repr, Inhabited

/-- The Writer fields read by `mp4_writer_is_recording`. -/
structure WriterQ where
  isRotating : Bool
  threadCtx : Option ThreadCtx
deriving DecidableEq, Repr, Inhabited

/-- `mp4_writer_is_recording`: 0 for a NULL writer; 1 while the rotation
flag is set; else 0 without a thread context, else the context's
`running` value. -/
def mp4WriterIsRecording : Option WriterQ → Int
  | none => 0
  | some w =>
    if w.isRotating then 1
    else
      match w.threadCtx with
      | none => 0
      | some t => t.running

/-! ### Predicates used by the theorems -/

/-- PTS is at least DTS whenever both timestamps are valid. -/
def ptsGe (p : Pkt) : Prop :=
  ∀ t d, p.pts = some t → p.dts = some d → d ≤ t

/-- The per-packet guarantees that hold for every packet submitted to the
writer: PTS >= DTS whenever both timestamps are valid, and for audio
packets a DTS bound of `0x70000000`. -/
def goodPkt (o : OutPkt) : Prop :=
  ptsGe o.pkt ∧ (o.stream = StreamKind.audio → ∀ d, o.pkt.dts = some d → d ≤ mp4DtsSafe)

/-- Audio-state invariant: while no audio packet has been written, no first
audio timestamp has been captured (true as long as every write succeeds). -/
def audioSt (s : RecSt) : Prop :=
  s.audioCount = 0 → s.firstAudioDts = none ∧ s.firstAudioPts = none

/-- A packet that went through the overflow guard — every audio packet and
the final video packet of the waiting state — has a bounded DTS. -/
def guardedPkt (o : OutPkt) : Prop :=
  (o.stream = StreamKind.audio ∨ o.final = true) → ∀ d, o.pkt.dts = some d → d ≤ mp4DtsSafe

/-- A video packet's output timestamps lie in `[0, B]`. -/
def vBound (B : Int) (o : OutPkt) : Prop :=
  o.stream = StreamKind.video →
    (∀ d, o.pkt.dts = some d → 0 ≤ d ∧ d ≤ B) ∧
    (∀ t, o.pkt.pts = some t → 0 ≤ t ∧ t ≤ B)

/-- The captured first video timestamps lie in the input window `[L, L+B]`,
and they are captured together. -/
def vWindow (L B : Int) (s : RecSt) : Prop :=
  (∀ f, s.firstVideoDts = some f → L ≤ f ∧ f ≤ L + B) ∧
  (∀ f, s.firstVideoPts = some f → L ≤ f ∧ f ≤ L + B) ∧
  s.firstVideoPts.isSome = s.firstVideoDts.isSome

/-- All video packets delivered by an event have input timestamps in
`[L, L+B]`, and a valid PTS only comes with a valid DTS. -/
def vEvWindow (L B : Int) (e : InEvent) : Prop :=
  ∀ p, e.read = ReadRes.ok p → p.stream = StreamKind.video →
    (∀ d, p.dts = some d → L ≤ d ∧ d ≤ L + B) ∧
    (∀ t, p.pts = some t → L ≤ t ∧ t ≤ L + B) ∧
    (p.pts.isSome = true → p.dts.isSome = true)

/-- Selects video packets carrying a valid DTS. -/
def isVidTs (o : OutPkt) : Bool :=
  (o.stream == StreamKind.video) && o.pkt.dts.isSome

/-! ### Concrete instances for counterexamples and witnesses -/

/-- Stream configuration used in the concrete runs below. -/
def cfg0 : Cfg :=
  { frameRateValid := false, videoFrameDur := 1, sampleRate := 0,
    nbChannels := 0, bitsPerCodedSample := 0, audioDurOfSamples := fun _ => 1 }

/-- A read event delivering one video packet (all writes succeed). -/
def vEv (now : Int) (sd : Bool) (dts pts : Option Int) (key : Bool) : InEvent :=
  { now := now, shutdown := sd, writeOk := true,
    read := ReadRes.ok { stream := StreamKind.video, dts := dts, pts := pts,
                         isKey := key, duration := 1, size := 0 } }

/-- An end-of-stream read event. -/
def eofEv (now : Int) : InEvent :=
  { now := now, shutdown := false, writeOk := true, read := ReadRes.eof }

/-- An environment in which every pre-loop library call succeeds (no audio
stream in the input). -/
def envOk (evs : List InEvent) : Env :=
  { inputProvided := true, openOk := true, findStreamOk := true, hasVideoStream := true,
    hasAudioStream := false, allocOutputOk := true, newVideoStreamOk := true,
    copyVideoParamsOk := true, newAudioStreamOk := true, copyAudioParamsOk := true,
    avioOpenOk := true, writeHeaderOk := true, startTime := 0, trailerOk := true,
    events := evs }

/-- Segment-0 run whose video DTS inputs are 300, 500, 400, 2147483953. -/
def envC1 : Env := envOk
  [vEv 1000 false (some 300) (some 300) true,
   vEv 2000 false (some 500) (some 500) false,
   vEv 3000 false (some 400) (some 400) false,
   vEv 4000 false (some 2147483953) (some 2147483953) false,
   eofEv 5000]

/-- Segment-0 run whose second video packet rebases to DTS 2147483699,
above the MP4 limit, in the ordinary copying state. -/
def envC2 : Env := envOk
  [vEv 1000 false (some 100) (some 100) true,
   vEv 2000 false (some 2147483799) (some 2147483799) false,
   eofEv 3000]

/-- First invocation for the static-`waiting_start_time` run: a keyframe,
then shutdown begins the final-keyframe wait on a non-keyframe at t = 2 s,
and a keyframe at t = 2.5 s ends the segment. -/
def env5a : Env := envOk
  [vEv 1000000 false (some 100) (some 100) true,
   vEv 2000000 true (some 200) (some 200) false,
   vEv 2500000 true (some 300) (some 300) true]

/-- Second invocation: a keyframe at t = 9 s, then shutdown begins the
final-keyframe wait at t = 9.1 s on a non-keyframe. -/
def env5b : Env := envOk
  [vEv 9000000 false (some 1000) (some 1000) true,
   vEv 9100000 true (some 1100) (some 1100) false]

/-- Segment-0 run whose first video DTS is near 2^31
(first DTS 2147482648 = 2^31 - 1000). -/
def envC3 : Env := envOk
  [vEv 1000 false (some 2147482648) (some 2147482648) true,
   vEv 2000 false (some 2147483148) (some 2147483148) false,
   eofEv 3000]

/-- A minimal successful run used by witnesses: one keyframe, then EOF. -/
def envC7 : Env := envOk
  [vEv 1000 false (some 10) (some 10) true, eofEv 2000]

/-- A run failing before the loop: `avio_open` fails. -/
def envC8 : Env :=
  { envOk [eofEv 1000] with avioOpenOk := false }

/-- A Writer with segment duration 0. -/
def w4 : WriterSt :=
  { segmentDuration := 0, hasAudio := false, outputDir := "/rec",
    outputPath := "/rec/recording_first.mp4", currentRecordingId := 7,
    lastRotationTime := 0, lastPacketTime := 0 }

/-- A supervisor iteration environment with no database row. -/
def iter4 : IterEnv :=
  { now := 100, dbConfig := none, addResult := 0, statResult := none,
    newPathTimestamp := "20251011_120000" }

/-- A Writer due for rotation. -/
def w9 : WriterSt :=
  { segmentDuration := 30, hasAudio := false, outputDir := "/rec",
    outputPath := "/rec/recording_old.mp4", currentRecordingId := 7,
    lastRotationTime := 0, lastPacketTime := 0 }

/-- A rotation-iteration environment whose catalog add fails. -/
def iter9 : IterEnv :=
  { now := 100, dbConfig := none, addResult := 0, statResult := some 555,
    newPathTimestamp := "20251011_120100" }

/-- Outcome of the `envC1` run. -/
def outC1 : Outcome := (recordSegment cfg0 envC1 0 false none 0).getD default

/-- Outcome of the `envC2` run. -/
def outC2 : Outcome := (recordSegment cfg0 envC2 0 false none 0).getD default

/-- The unguarded packet of the `envC2` run, for the guard-semantics
witness. -/
def pktC2 : Pkt :=
  { stream := StreamKind.video, dts := some 2147483699, pts := some 2147483699,
    isKey := false, duration := 1, size := 0 }

/-- Outcome of the `envC3` run. -/
def outC3 : Outcome := (recordSegment cfg0 envC3 0 false none 0).getD default

/-- Outcome of the `envC7` run. -/
def outC7 : Outcome := (recordSegment cfg0 envC7 5 false (some ⟨0, false, false⟩) 0).getD default

/-- Outcome of the `envC8` run. -/
def outC8 : Outcome := (recordSegment cfg0 envC8 5 false (some ⟨3, true, true⟩) 0).getD default

/-! ### Theorems -/

/-- C1 counterexample: in a segment-0 run of `record_segment` where every
write succeeds and the input video DTS values are 300, 500, 400,
2147483953, the DTS values submitted to the writer are 0, 200, 100,
2147483653 — the sequence decreases (200 then 100) and its last value
exceeds 2^31 - 1, so the claimed file-wide invariant is false. -/
theorem c1_counterexample :
    (recordSegment cfg0 envC1 0 false none 0).map (fun o => o.written.map fun w => w.pkt.dts)
      = some [some 0, some 200, some 100, some 2147483653]
    ∧ ¬ ((200 : Int) ≤ 100) ∧ ¬ ((2147483653 : Int) ≤ mp4DtsLimit) :=
  ⟨rfl, by decide, by decide⟩

/-- C2 counterexample: a video packet processed in the ordinary copying
state whose rebased DTS is 2147483699 (above 2^31 - 1) is submitted to the
writer unchanged — not reset to 1000 — so the overflow guard is not
applied to every packet of every stream in every state. -/
theorem c2_counterexample :
    (recordSegment cfg0 envC2 0 false none 0).map (fun o => o.written.map fun w => w.pkt.dts)
      = some [some 0, some 2147483699]
    ∧ mp4DtsLimit < 2147483699 ∧ (some 2147483699 : Option Int) ≠ some 1000 :=
  ⟨rfl, by decide, by decide⟩

/-- C4 counterexample: with a resolved segment duration of 0 the supervisor
iteration performs no rotation and publishes nothing, but invokes
`record_segment` with the default duration 30, not with duration 0. -/
theorem c4_counterexample :
    (superviseStep w4 iter4).rotated = false ∧ (superviseStep w4 iter4).ops = [] ∧
    (superviseStep w4 iter4).passedDuration = 30 ∧ (30 : Int) ≠ 0 :=
  ⟨rfl, rfl, rfl, by decide⟩

/-- C5: the final-keyframe wait is measured from the function-static
`waiting_start_time`, which survives across invocations of
`record_segment`. In the first invocation the wait starts at t = 2 s. In
the second invocation the loop enters the waiting state only at its second
event (`shutdown` flags are `[false, true]`), yet the very first waiting
packet — a non-keyframe — is written as the final packet immediately
(after 0 s of waiting in that invocation), because the stale static value
2000000 makes the computed wait time 7 s. -/
theorem c5_static_wait_bug :
    ((recordSegment cfg0 env5a 0 false (some ⟨0, false, false⟩) 0).bind fun o1 =>
      (recordSegment cfg0 env5b 0 false o1.prevInfo o1.waitingStatic).map fun o2 =>
        (o1.waitingStatic, o2.written.map fun w => (w.final, w.pkt.isKey)))
      = some (2000000, [(false, true), (true, false)])
    ∧ (env5b.events.map fun e => e.shutdown) = [false, true] :=
  ⟨rfl, rfl⟩

/-- C6: the retry counter is the function-static `segment_retry_count`,
shared by every recording thread in the process. After five consecutive
failures of session A, session B's very first failure is charged a 5-second
backoff with a forced input-connection close, whereas worker-local counters
(as the spec mandates) would give B a 1-second backoff and no forced
close. -/
theorem c6_shared_retry_counter :
    (sharedBackoffs 0
        [SessionId.a, SessionId.a, SessionId.a, SessionId.a, SessionId.a, SessionId.b]).getLast?
      = some (SessionId.b, 5, true) ∧
    (perWorkerBackoffs (fun _ => 0)
        [SessionId.a, SessionId.a, SessionId.a, SessionId.a, SessionId.a, SessionId.b]).getLast?
      = some (SessionId.b, 1, false) :=
  ⟨rfl, rfl⟩

/-- C10: `mp4_writer_is_recording` returns 0 for a NULL writer and for a
writer without a thread context, except that a set rotation flag makes it
return 1 regardless of the thread context and its running flag. -/
theorem c10_is_recording (w : WriterQ) :
    mp4WriterIsRecording none = 0 ∧
    (w.threadCtx = none → w.isRotating = false → mp4WriterIsRecording (some w) = 0) ∧
    (w.isRotating = true → mp4WriterIsRecording (some w) = 1) := by
  refine ⟨rfl, ?_, ?_⟩
  · intro h1 h2
    simp [mp4WriterIsRecording, h1, h2]
  · intro h
    simp [mp4WriterIsRecording, h]

/-- Witness for `c10_is_recording` at a rotating writer without a thread
context. -/
theorem c10_witness :
    ({ isRotating := true, threadCtx := none } : WriterQ).isRotating = true ∧
    mp4WriterIsRecording (some { isRotating := true, threadCtx := none }) = 1 :=
  ⟨rfl, (c10_is_recording { isRotating := true, threadCtx := none }).2.2 rfl⟩

/-- C9: when rotation fires and `add_recording_metadata` for the new file
fails (returns 0), the Writer's output path is still switched to the new
file while `current_recording_id` keeps its previous value; the previous
record is finalized with `is_complete = true`, and every subsequent interim
size update targets that same previous id. -/
theorem c9_rotation_add_failure (w : WriterSt) (env : IterEnv) (segDur : Int) (sz : Nat)
    (hdur : segDur > 0) (helapsed : env.now - w.lastRotationTime ≥ segDur)
    (hadd : env.addResult = 0) (hid : w.currentRecordingId > 0) :
    (rotationCheck w env segDur).2.2 = true ∧
    (rotationCheck w env segDur).1.outputPath
      = w.outputDir ++ "/recording_" ++ env.newPathTimestamp ++ ".mp4" ∧
    (rotationCheck w env segDur).1.currentRecordingId = w.currentRecordingId ∧
    CatalogOp.update w.currentRecordingId env.now (env.statResult.getD 0) true
      ∈ (rotationCheck w env segDur).2.1 ∧
    interimUpdate (rotationCheck w env segDur).1 (some sz)
      = [CatalogOp.update w.currentRecordingId 0 sz false] := by
  have hcond : segDur > 0 ∧ env.now - w.lastRotationTime ≥ segDur := ⟨hdur, helapsed⟩
  cases hstat : env.statResult with
  | none =>
    simp [rotationCheck, interimUpdate, if_pos hcond, hadd, hid, hstat]
  | some size =>
    simp [rotationCheck, interimUpdate, if_pos hcond, hadd, hid, hstat]

/-- Witness for `c9_rotation_add_failure` at a concrete rotating writer. -/
theorem c9_witness :
    ((30 : Int) > 0 ∧ iter9.now - w9.lastRotationTime ≥ 30 ∧ iter9.addResult = 0 ∧
      w9.currentRecordingId > 0) ∧
    ((rotationCheck w9 iter9 30).2.2 = true ∧
     (rotationCheck w9 iter9 30).1.outputPath
       = w9.outputDir ++ "/recording_" ++ iter9.newPathTimestamp ++ ".mp4" ∧
     (rotationCheck w9 iter9 30).1.currentRecordingId = w9.currentRecordingId ∧
     CatalogOp.update w9.currentRecordingId iter9.now (iter9.statResult.getD 0) true
       ∈ (rotationCheck w9 iter9 30).2.1 ∧
     interimUpdate (rotationCheck w9 iter9 30).1 (some 777)
       = [CatalogOp.update w9.currentRecordingId 0 777 false]) :=
  ⟨⟨by decide, by decide, by decide, by decide⟩,
   c9_rotation_add_failure w9 iter9 30 777 (by decide) (by decide) (by decide) (by decide)⟩

/-- One supervisor iteration with a resolved segment duration of 0: the
configuration re-read keeps the duration at 0, nothing is rotated or
published, the output path is untouched, and `record_segment` is invoked
with the default duration 30. -/
theorem superviseStep_zero (w : WriterSt) (env : IterEnv)
    (h0 : w.segmentDuration = 0)
    (hdb : ∀ db, env.dbConfig = some db → db.segmentDuration ≤ 0) :
    (superviseStep w env).w.segmentDuration = 0 ∧
    (superviseStep w env).w.outputPath = w.outputPath ∧
    (superviseStep w env).rotated = false ∧
    (superviseStep w env).ops = [] ∧
    (superviseStep w env).passedDuration = 30 := by
  cases hdbc : env.dbConfig with
  | none =>
    simp [superviseStep, resolveConfig, rotationCheck, effectiveDuration, hdbc, h0]
  | some db =>
    have hle : ¬ db.segmentDuration > 0 := not_lt.mpr (hdb db hdbc)
    by_cases ha : w.hasAudio ≠ db.recordAudio <;>
      simp [superviseStep, resolveConfig, rotationCheck, effectiveDuration, hdbc, h0, hle, ha]

/-- C4 (amended): over any supervisor run in which the Writer's segment
duration starts at 0 and the configuration store never supplies a positive
duration, no iteration rotates, no catalog record is added, the output path
never changes — but every iteration invokes `record_segment` with the
default duration 30 rather than 0. -/
theorem c4_zero_duration (w0 : WriterSt) (envs : List IterEnv)
    (h0 : w0.segmentDuration = 0)
    (hdb : ∀ env ∈ envs, ∀ db, env.dbConfig = some db → db.segmentDuration ≤ 0) :
    (superviseRun w0 envs).1.outputPath = w0.outputPath ∧
    ∀ r ∈ (superviseRun w0 envs).2,
      r.rotated = false ∧ r.ops = [] ∧ r.passedDuration = 30 := by
  induction envs generalizing w0 with
  | nil => simp [superviseRun]
  | cons env rest ih =>
    have hstep := superviseStep_zero w0 env h0 (hdb env (by simp))
    have hrest := ih (superviseStep w0 env).w hstep.1 fun e he => hdb e (by simp [he])
    constructor
    · calc (superviseRun w0 (env :: rest)).1.outputPath
          = (superviseRun (superviseStep w0 env).w rest).1.outputPath := by
            simp [superviseRun]
      _ = (superviseStep w0 env).w.outputPath := hrest.1
      _ = w0.outputPath := hstep.2.1
    · intro r hr
      simp only [superviseRun, List.mem_cons] at hr
      rcases hr with h | h
      · subst h
        exact ⟨hstep.2.2.1, hstep.2.2.2.1, hstep.2.2.2.2⟩
      · exact hrest.2 r h

/-- Witness for `c4_zero_duration` at a concrete zero-duration writer. -/
theorem c4_witness :
    (w4.segmentDuration = 0 ∧
      ∀ env ∈ [iter4], ∀ db, env.dbConfig = some db → db.segmentDuration ≤ 0) ∧
    ((superviseRun w4 [iter4]).1.outputPath = w4.outputPath ∧
      ∀ r ∈ (superviseRun w4 [iter4]).2,
        r.rotated = false ∧ r.ops = [] ∧ r.passedDuration = 30) :=
  ⟨⟨rfl, by decide⟩, c4_zero_duration w4 [iter4] rfl (by decide)⟩

/-- The top-of-loop checks only modify the two waiting flags. -/
theorem checkFlags_shape (d : Int) (s : RecSt) (e : InEvent) :
    ∃ w1 d1, checkFlags d s e = { s with waiting := w1, shutdownDetected := d1 } := by
  simp only [checkFlags]
  repeat' split
  all_goals exact ⟨_, _, rfl⟩

/-- The audio branch never touches `prev_segment_info`. -/
theorem stepAudio_prevInfo (c : LoopCtx) (s : RecSt) (e : InEvent) (p : Pkt) :
    ((stepAudio c s e p).1).prevInfo = s.prevInfo := by
  simp only [stepAudio, updateLastAudio]
  repeat' split
  all_goals rfl

/-- The first-keyframe gate returns either `none` or a state with the same
`prev_segment_info` (and the same audio fields and counters). -/
theorem stepVideo_gate (s s1 : RecSt) (e : InEvent) (p : Pkt) (c : LoopCtx)
    (heq : (if s.foundFirstKeyframe then some s
            else if (s.prevInfo.elim false fun pi => pi.lastFrameWasKey) && decide (c.segIdx > 0) then
              some { s with foundFirstKeyframe := true, startTime := e.now }
            else if p.isKey then
              some { s with foundFirstKeyframe := true, startTime := e.now }
            else none) = some s1) :
    s1.prevInfo = s.prevInfo ∧ s1.firstVideoDts = s.firstVideoDts ∧
    s1.firstVideoPts = s.firstVideoPts ∧ s1.firstAudioDts = s.firstAudioDts ∧
    s1.firstAudioPts = s.firstAudioPts ∧ s1.audioCount = s.audioCount ∧
    s1.waiting = s.waiting ∧ s1.waitingStartTime = s.waitingStartTime ∧
    s1.lastAudioDts = s.lastAudioDts ∧ s1.lastAudioPts = s.lastAudioPts := by
  repeat' split at heq
  all_goals first
    | exact Option.noConfusion heq
    | (injection heq with heq
       subst heq
       exact ⟨rfl, rfl, rfl, rfl, rfl, rfl, rfl, rfl, rfl, rfl⟩)

/-- The ordinary video path never touches `prev_segment_info`. -/
theorem normalVideo_prevInfo (c : LoopCtx) (s : RecSt) (e : InEvent) (p : Pkt) :
    ((normalVideo c s e p).1).prevInfo = s.prevInfo := by
  simp only [normalVideo, updateLastVideo]
  repeat' split
  all_goals rfl

/-- The final-keyframe write preserves presence of `prev_segment_info`. -/
theorem finalVideo_prevInfo_isSome (c : LoopCtx) (s : RecSt) (e : InEvent) (p : Pkt) :
    ((finalVideo c s e p).1).prevInfo.isSome = s.prevInfo.isSome := by
  simp only [finalVideo, updateLastVideo]
  repeat' split
  all_goals simp [Option.isSome_map']

/-- The video branch preserves presence of `prev_segment_info`. -/
theorem stepVideo_prevInfo_isSome (c : LoopCtx) (s : RecSt) (e : InEvent) (p : Pkt) :
    ((stepVideo c s e p).1).prevInfo.isSome = s.prevInfo.isSome := by
  simp only [stepVideo]
  split
  · rfl
  · rename_i s1 heq
    have hs1 := (stepVideo_gate s s1 e p c heq).1
    repeat' split
    all_goals first
      | (rw [finalVideo_prevInfo_isSome]
         exact congrArg Option.isSome hs1)
      | (rw [normalVideo_prevInfo]
         exact congrArg Option.isSome hs1)

/-- One loop iteration preserves presence of `prev_segment_info`. -/
theorem step_prevInfo_isSome (c : LoopCtx) (s : RecSt) (e : InEvent) :
    ((step c s e).1).prevInfo.isSome = s.prevInfo.isSome := by
  obtain ⟨w1, d1, hcf⟩ := checkFlags_shape c.duration s e
  simp only [step, hcf]
  repeat' split
  all_goals first
    | rfl
    | exact stepVideo_prevInfo_isSome c _ e _
    | rw [stepAudio_prevInfo]

/-- The loop preserves presence of `prev_segment_info`. -/
theorem runLoop_prevInfo (c : LoopCtx) :
    ∀ (evs : List InEvent) (s : RecSt),
      ((runLoop c s evs).1).prevInfo.isSome = s.prevInfo.isSome := by
  intro evs
  induction evs with
  | nil => intro _; rfl
  | cons e es ih =>
    intro s
    have hs := step_prevInfo_isSome c s e
    simp only [runLoop]
    rcases hstep : step c s e with ⟨s1, outs, br⟩
    rw [hstep] at hs
    cases br with
    | some r => exact hs
    | none => exact (ih s1).trans hs

set_option maxHeartbeats 1000000 in
/-- The pre-loop chain returns `none` exactly when the loop is reached. -/
theorem preLoopFail_none (env : Env) (hasAudio : Bool) (prev : Option SegmentInfo) (wst : Int) :
    preLoopFail env hasAudio prev wst = none ↔ reachesLoop env hasAudio = true := by
  unfold preLoopFail reachesLoop
  repeat' split
  all_goals simp

set_option maxHeartbeats 1000000 in
/-- Structure of a pre-loop failure outcome: `prev_segment_info` untouched,
nothing written, no trailer attempted, file handle closed iff opened, and
the loop not reached. -/
theorem preLoopFail_some (env : Env) (hasAudio : Bool) (prev : Option SegmentInfo) (wst : Int)
    (o : Outcome) (h : preLoopFail env hasAudio prev wst = some o) :
    o.prevInfo = prev ∧ o.written = [] ∧ o.trailerCalls = 0 ∧ o.pbOpened = o.pbClosed ∧
    o.waitingStatic = wst ∧ reachesLoop env hasAudio = false := by
  unfold preLoopFail at h
  unfold reachesLoop
  repeat' split at h
  all_goals first
    | exact Option.noConfusion h
    | (injection h with h
       subst h
       simp_all [earlyFail])

/-- C8: `prev_segment_info.segment_index` is set to its previous value plus
one by every `record_segment` invocation that reaches the packet-copying
loop (whatever the invocation's result), and any invocation failing before
the loop leaves `prev_segment_info` completely unchanged. -/
theorem c8_segment_index (cfg : Cfg) (env : Env) (duration : Int) (hasAudio : Bool)
    (pi : SegmentInfo) (wst : Int) (out : Outcome)
    (h : recordSegment cfg env duration hasAudio (some pi) wst = some out) :
    (reachesLoop env hasAudio = true →
       ∃ pj, out.prevInfo = some pj ∧ pj.segmentIndex = pi.segmentIndex + 1) ∧
    (reachesLoop env hasAudio = false → out.prevInfo = some pi) := by
  unfold recordSegment at h
  cases hpre : preLoopFail env hasAudio (some pi) wst with
  | some o =>
    rw [hpre] at h
    have hs := preLoopFail_some env hasAudio (some pi) wst o hpre
    injection h with h
    subst h
    refine ⟨fun hr => ?_, fun _ => hs.1⟩
    rw [hs.2.2.2.2.2] at hr
    exact Bool.noConfusion hr
  | none =>
    rw [hpre] at h
    have hreach : reachesLoop env hasAudio = true := (preLoopFail_none env hasAudio _ wst).mp hpre
    refine ⟨fun _ => ?_, fun hr => ?_⟩
    · rcases hrl : runLoop (loopCtxOf cfg env duration hasAudio (some pi))
          (initStateOf env (some pi) wst) env.events with ⟨s1, outs, br⟩
      rw [hrl] at h
      cases br with
      | none => exact Option.noConfusion h
      | some r =>
        have h2 : some (loopOutcome env hasAudio (some pi) s1 outs) = some out := h
        injection h2 with h2
        subst h2
        have hps := runLoop_prevInfo (loopCtxOf cfg env duration hasAudio (some pi))
          env.events (initStateOf env (some pi) wst)
        rw [hrl] at hps
        simp only [initStateOf] at hps
        obtain ⟨pj, hpj⟩ := Option.isSome_iff_exists.mp (by
          rw [hps]
          rfl)
        have hw : (loopOutcome env hasAudio (some pi) s1 outs).prevInfo
            = some { pj with segmentIndex := segIdxOf (some pi), hasAudio := hasAudio && env.hasAudioStream } := by
          simp only [loopOutcome, hpj]
          rfl
        exact ⟨_, hw, by simp [segIdxOf]⟩
    · rw [hreach] at hr
      exact Bool.noConfusion hr

/-- C7: in every `record_segment` invocation that returns, the container
trailer is written at most once (main path and cleanup path combined), and
whenever the output I/O handle was successfully opened it is closed before
returning — including when the trailer write fails. -/
theorem c7_trailer_and_close (cfg : Cfg) (env : Env) (duration : Int) (hasAudio : Bool)
    (prev : Option SegmentInfo) (wst : Int) (out : Outcome)
    (h : recordSegment cfg env duration hasAudio prev wst = some out) :
    out.trailerCalls ≤ 1 ∧ (out.pbOpened = true → out.pbClosed = true) := by
  unfold recordSegment at h
  cases hpre : preLoopFail env hasAudio prev wst with
  | some o =>
    rw [hpre] at h
    have hs := preLoopFail_some env hasAudio prev wst o hpre
    injection h with h
    subst h
    refine ⟨by rw [hs.2.2.1]; exact Nat.zero_le 1, fun hob => ?_⟩
    rw [← hs.2.2.2.1, hob]
  | none =>
    rw [hpre] at h
    rcases hrl : runLoop (loopCtxOf cfg env duration hasAudio prev)
        (initStateOf env prev wst) env.events with ⟨s1, outs, br⟩
    rw [hrl] at h
    cases br with
    | none => exact Option.noConfusion h
    | some r =>
      have h2 : some (loopOutcome env hasAudio prev s1 outs) = some out := h
      injection h2 with h2
      subst h2
      refine ⟨?_, fun _ => rfl⟩
      by_cases ht : env.trailerOk <;> simp [loopOutcome, ht]

/-- Witness for `c7_trailer_and_close` at a concrete successful run. -/
theorem c7_witness :
    recordSegment cfg0 envC7 5 false (some ⟨0, false, false⟩) 0 = some outC7 ∧
    (outC7.trailerCalls ≤ 1 ∧ (outC7.pbOpened = true → outC7.pbClosed = true)) :=
  ⟨rfl, c7_trailer_and_close cfg0 envC7 5 false (some ⟨0, false, false⟩) 0 outC7 rfl⟩

/-- Witness for `c8_segment_index`: a run reaching the loop increments the
segment index by one; a run failing at `avio_open` leaves the segment info
unchanged. -/
theorem c8_witness :
    (reachesLoop envC7 false = true ∧
      ∃ pj, outC7.prevInfo = some pj ∧
        pj.segmentIndex = (⟨0, false, false⟩ : SegmentInfo).segmentIndex + 1) ∧
    (reachesLoop envC8 false = false ∧ outC8.prevInfo = some ⟨3, true, true⟩) :=
  ⟨⟨rfl, (c8_segment_index cfg0 envC7 5 false ⟨0, false, false⟩ 0 outC7 rfl).1 rfl⟩,
   ⟨rfl, (c8_segment_index cfg0 envC8 5 false ⟨3, true, true⟩ 0 outC8 rfl).2 rfl⟩⟩

/-- Duration synthesis for video never changes the timestamps. -/
theorem synthVideoDuration_ts (cfg : Cfg) (p : Pkt) :
    (synthVideoDuration cfg p).pts = p.pts ∧ (synthVideoDuration cfg p).dts = p.dts := by
  unfold synthVideoDuration
  repeat' split
  all_goals exact ⟨rfl, rfl⟩

/-- Duration synthesis for audio never changes the timestamps. -/
theorem synthAudioDuration_ts (cfg : Cfg) (p : Pkt) :
    (synthAudioDuration cfg p).pts = p.pts ∧ (synthAudioDuration cfg p).dts = p.dts := by
  simp only [synthAudioDuration]
  repeat' split
  all_goals exact ⟨rfl, rfl⟩

/-- The duration cap never changes the timestamps. -/
theorem capVideoDuration_ts (p : Pkt) :
    (capVideoDuration p).pts = p.pts ∧ (capVideoDuration p).dts = p.dts := by
  unfold capVideoDuration
  split
  all_goals exact ⟨rfl, rfl⟩

/-- The PTS >= DTS fix establishes its postcondition. -/
theorem fixPtsDts_ptsGe (p : Pkt) : ptsGe (fixPtsDts p) := by
  intro t d ht hd
  unfold fixPtsDts at ht hd
  rcases hpp : p.pts with _ | t0 <;> rcases hpd : p.dts with _ | d0 <;>
    rw [hpp, hpd] at ht hd <;> simp_all
  split at ht <;> split at hd <;> simp_all <;> omega

/-- Full characterization of the overflow guard on a packet with a valid
DTS: reset to 1000 above the limit with PTS recomputed against the new DTS
(leaving PTS unchanged when at least 1000); preemptive reset to 1000 above
the safety threshold with PTS forced to 1001; identity otherwise. -/
theorem overflowGuard_char (p : Pkt) (d0 : Int) (hd : p.dts = some d0) :
    (d0 > mp4DtsLimit →
      (overflowGuard p).dts = some 1000 ∧
      (overflowGuard p).pts
        = some (p.pts.elim 1000 fun t => if t - 1000 ≥ 0 then 1000 + (t - 1000) else 1000)) ∧
    (d0 ≤ mp4DtsLimit → d0 > mp4DtsSafe →
      (overflowGuard p).dts = some 1000 ∧
      (overflowGuard p).pts = some (p.pts.elim 1000 fun _ => 1001)) ∧
    (d0 ≤ mp4DtsSafe → overflowGuard p = p) := by
  have hns : ¬ ((1000 : Int) > mp4DtsSafe) := by unfold mp4DtsSafe; omega
  refine ⟨fun h1 => ?_, fun h1 h2 => ?_, fun h1 => ?_⟩
  · rcases hpt : p.pts with _ | t
    · simp [overflowGuard, hd, hpt, if_pos h1, hns]
    · by_cases hdiff : t - 1000 ≥ 0 <;>
        simp [overflowGuard, hd, hpt, if_pos h1, hns, hdiff] <;>
        split <;> omega
  · have hn1 : ¬ (d0 > mp4DtsLimit) := not_lt.mpr h1
    rcases hpt : p.pts with _ | t <;>
      simp [overflowGuard, hd, hpt, hn1, if_pos h2]
  · have hn1 : ¬ (d0 > mp4DtsLimit) := by unfold mp4DtsLimit mp4DtsSafe at *; omega
    have hn2 : ¬ (d0 > mp4DtsSafe) := not_lt.mpr h1
    simp [overflowGuard, hd, hn1, hn2]

/-- After the overflow guard, any valid DTS is at most the safety
threshold. -/
theorem overflowGuard_dts_le (p : Pkt) (d : Int) (h : (overflowGuard p).dts = some d) :
    d ≤ mp4DtsSafe := by
  rcases hpd : p.dts with _ | d0
  · unfold overflowGuard at h
    rw [hpd] at h
    rw [hpd] at h
    exact Option.noConfusion h
  · have hc := overflowGuard_char p d0 hpd
    rcases le_or_lt d0 mp4DtsSafe with hle | hgt
    · rw [hc.2.2 hle, hpd] at h
      injection h with h
      omega
    · rcases le_or_lt d0 mp4DtsLimit with hle2 | hgt2
      · rw [(hc.2.1 hle2 hgt).1] at h
        injection h with h
        unfold mp4DtsSafe at *
        omega
      · rw [(hc.1 hgt2).1] at h
        injection h with h
        unfold mp4DtsSafe at *
        omega

/-- The overflow guard preserves PTS >= DTS. -/
theorem overflowGuard_ptsGe (p : Pkt) (h : ptsGe p) : ptsGe (overflowGuard p) := by
  rcases hpd : p.dts with _ | d0
  · intro t d ht hd
    unfold overflowGuard at ht hd
    rw [hpd] at ht hd
    exact h t d ht hd
  · have hc := overflowGuard_char p d0 hpd
    rcases le_or_lt d0 mp4DtsSafe with hle | hgt
    · rw [hc.2.2 hle]
      exact h
    · intro t d ht hd
      rcases le_or_lt d0 mp4DtsLimit with hle2 | hgt2
      · rw [(hc.2.1 hle2 hgt).1] at hd
        rw [(hc.2.1 hle2 hgt).2] at ht
        injection hd with hd
        injection ht with ht
        rcases hpt : p.pts with _ | t0 <;> rw [hpt] at ht <;> simp at ht <;> omega
      · rw [(hc.1 hgt2).1] at hd
        rw [(hc.1 hgt2).2] at ht
        injection hd with hd
        injection ht with ht
        rcases hpt : p.pts with _ | t0 <;> rw [hpt] at ht <;> simp at ht
        · omega
        · split at ht <;> omega

/-- The audio monotonicity block ends with the PTS >= DTS fix. -/
theorem audioMonotonic_ptsGe (l1 l2 : Int) (p : Pkt) : ptsGe (audioMonotonic l1 l2 p) := by
  unfold audioMonotonic
  exact fixPtsDts_ptsGe _

/-- The first packet of a stream (no first timestamp captured yet) rebases
to equal PTS and DTS whenever both are valid. -/
theorem rebase_first_ptsGe (segIdx : Int) (p : Pkt) :
    ptsGe (rebaseTs segIdx (initFirstTs none none p).1 (initFirstTs none none p).2 p) := by
  intro t d ht hd
  rcases hpd : p.dts with _ | d0 <;> rcases hpt : p.pts with _ | t0 <;>
    by_cases hseg : segIdx = 0 <;>
      simp_all [rebaseTs, initFirstTs] <;> omega

/-- `last_audio_*` updates never touch the other audio state. -/
theorem updateLastAudio_fields (s : RecSt) (q : Pkt) :
    (updateLastAudio s q).audioCount = s.audioCount ∧
    (updateLastAudio s q).firstAudioDts = s.firstAudioDts ∧
    (updateLastAudio s q).firstAudioPts = s.firstAudioPts := by
  unfold updateLastAudio
  repeat' split
  all_goals exact ⟨rfl, rfl, rfl⟩

/-- The ordinary video path never touches the audio state. -/
theorem normalVideo_audioFields (c : LoopCtx) (s : RecSt) (e : InEvent) (p : Pkt) :
    ((normalVideo c s e p).1).audioCount = s.audioCount ∧
    ((normalVideo c s e p).1).firstAudioDts = s.firstAudioDts ∧
    ((normalVideo c s e p).1).firstAudioPts = s.firstAudioPts := by
  simp only [normalVideo, updateLastVideo]
  repeat' split
  all_goals exact ⟨rfl, rfl, rfl⟩

/-- The final-keyframe write never touches the audio state. -/
theorem finalVideo_audioFields (c : LoopCtx) (s : RecSt) (e : InEvent) (p : Pkt) :
    ((finalVideo c s e p).1).audioCount = s.audioCount ∧
    ((finalVideo c s e p).1).firstAudioDts = s.firstAudioDts ∧
    ((finalVideo c s e p).1).firstAudioPts = s.firstAudioPts := by
  simp only [finalVideo, updateLastVideo]
  repeat' split
  all_goals exact ⟨rfl, rfl, rfl⟩

/-- The video branch never touches the audio state. -/
theorem stepVideo_audioFields (c : LoopCtx) (s : RecSt) (e : InEvent) (p : Pkt) :
    ((stepVideo c s e p).1).audioCount = s.audioCount ∧
    ((stepVideo c s e p).1).firstAudioDts = s.firstAudioDts ∧
    ((stepVideo c s e p).1).firstAudioPts = s.firstAudioPts := by
  simp only [stepVideo]
  split
  · exact ⟨rfl, rfl, rfl⟩
  · rename_i s1 heq
    have hg := stepVideo_gate s s1 e p c heq
    repeat' split
    all_goals first
      | exact ⟨(finalVideo_audioFields c _ e p).1.trans hg.2.2.2.2.2.1,
               (finalVideo_audioFields c _ e p).2.1.trans hg.2.2.2.1,
               (finalVideo_audioFields c _ e p).2.2.trans hg.2.2.2.2.1⟩
      | exact ⟨(normalVideo_audioFields c _ e p).1.trans hg.2.2.2.2.2.1,
               (normalVideo_audioFields c _ e p).2.1.trans hg.2.2.2.1,
               (normalVideo_audioFields c _ e p).2.2.trans hg.2.2.2.2.1⟩

/-- Packets submitted by the ordinary video path satisfy the per-packet
guarantees. -/
theorem normalVideo_good (c : LoopCtx) (s : RecSt) (e : InEvent) (p : Pkt) :
    ∀ o ∈ (normalVideo c s e p).2.1, goodPkt o := by
  intro o ho
  simp only [normalVideo, List.mem_singleton] at ho
  subst ho
  constructor
  · intro t d ht hd
    rw [(synthVideoDuration_ts c.cfg _).1] at ht
    rw [(synthVideoDuration_ts c.cfg _).2] at hd
    exact fixPtsDts_ptsGe _ t d ht hd
  · intro habs
    exact StreamKind.noConfusion habs

/-- Packets submitted by the final-keyframe write satisfy the per-packet
guarantees. -/
theorem finalVideo_good (c : LoopCtx) (s : RecSt) (e : InEvent) (p : Pkt) :
    ∀ o ∈ (finalVideo c s e p).2.1, goodPkt o := by
  intro o ho
  simp only [finalVideo, List.mem_singleton] at ho
  subst ho
  constructor
  · intro t d ht hd
    rw [(synthVideoDuration_ts c.cfg _).1, (capVideoDuration_ts _).1] at ht
    rw [(synthVideoDuration_ts c.cfg _).2, (capVideoDuration_ts _).2] at hd
    exact overflowGuard_ptsGe _ (fixPtsDts_ptsGe _) t d ht hd
  · intro habs
    exact StreamKind.noConfusion habs

/-- Packets submitted by the video branch satisfy the per-packet
guarantees. -/
theorem stepVideo_good (c : LoopCtx) (s : RecSt) (e : InEvent) (p : Pkt) :
    ∀ o ∈ (stepVideo c s e p).2.1, goodPkt o := by
  simp only [stepVideo]
  repeat' split
  all_goals first
    | exact fun o ho => absurd ho (List.not_mem_nil o)
    | exact normalVideo_good c _ e _
    | exact finalVideo_good c _ e _

/-- Packets submitted by the audio branch satisfy the per-packet
guarantees, and the audio-state invariant is preserved. -/
theorem stepAudio_good (c : LoopCtx) (s : RecSt) (e : InEvent) (p : Pkt)
    (hA : audioSt s) (hw : e.writeOk = true) :
    (∀ o ∈ (stepAudio c s e p).2.1, goodPkt o) ∧ audioSt (stepAudio c s e p).1 := by
  simp only [stepAudio]
  split
  · exact ⟨by simp, hA⟩
  · constructor
    · intro o ho
      simp only [List.mem_singleton] at ho
      subst ho
      constructor
      · intro t d ht hd
        rw [(synthAudioDuration_ts c.cfg _).1] at ht
        rw [(synthAudioDuration_ts c.cfg _).2] at hd
        refine overflowGuard_ptsGe _ ?_ t d ht hd
        by_cases hc : s.audioCount > 0
        · rw [if_pos hc]
          exact audioMonotonic_ptsGe _ _ _
        · rw [if_neg hc]
          have h0 : s.audioCount = 0 := Nat.eq_zero_of_not_pos hc
          obtain ⟨hfd, hfp⟩ := hA h0
          rw [hfd, hfp]
          exact rebase_first_ptsGe c.segIdx p
      · intro _ d hd
        rw [(synthAudioDuration_ts c.cfg _).2] at hd
        exact overflowGuard_dts_le _ d hd
    · simp only [hw]
      intro h0
      exact absurd h0 (Nat.succ_ne_zero _)

/-- One loop iteration submits only packets satisfying the per-packet
guarantees, and preserves the audio-state invariant. -/
theorem step_good (c : LoopCtx) (s : RecSt) (e : InEvent) (hA : audioSt s)
    (hw : e.writeOk = true) :
    (∀ o ∈ (step c s e).2.1, goodPkt o) ∧ audioSt (step c s e).1 := by
  obtain ⟨w1, d1, hcf⟩ := checkFlags_shape c.duration s e
  have hA1 : audioSt { s with waiting := w1, shutdownDetected := d1 } := hA
  simp only [step, hcf]
  split
  · exact ⟨by simp, hA1⟩
  · exact ⟨by simp, hA1⟩
  · exact ⟨by simp, hA1⟩
  · split
    · rename_i p hre sk hsk
      refine ⟨stepVideo_good c _ e _, ?_⟩
      intro h0
      have hf := stepVideo_audioFields c { s with waiting := w1, shutdownDetected := d1 } e p
      rw [hf.1] at h0
      rw [hf.2.1, hf.2.2]
      exact hA1 h0
    · split
      · exact stepAudio_good c _ e _ hA1 hw
      · exact ⟨by simp, hA1⟩
    · exact ⟨by simp, hA1⟩

/-- Every packet submitted over a whole loop run satisfies the per-packet
guarantees, provided every write succeeds. -/
theorem runLoop_good (c : LoopCtx) :
    ∀ (evs : List InEvent) (s : RecSt), audioSt s → (∀ e ∈ evs, e.writeOk = true) →
      ∀ o ∈ (runLoop c s evs).2.1, goodPkt o := by
  intro evs
  induction evs with
  | nil =>
    intro s _ _ o ho
    simp [runLoop] at ho
  | cons e es ih =>
    intro s hA hw o ho
    have hstep := step_good c s e hA (hw e (by simp))
    simp only [runLoop] at ho
    rcases hse : step c s e with ⟨s1, outs, br⟩
    rw [hse] at ho hstep
    cases br with
    | some r => exact hstep.1 o ho
    | none =>
      have ho2 : o ∈ outs ++ (runLoop c s1 es).2.1 := ho
      rcases List.mem_append.mp ho2 with hm | hm
      · exact hstep.1 o hm
      · exact ih s1 hstep.2 (fun e2 he2 => hw e2 (by simp [he2])) o hm

/-- C1 (amended): for every packet `record_segment` submits to the writer
(in a run where every write succeeds), the output PTS is at least the
output DTS whenever both are valid, and every audio packet's valid output
DTS is at most `0x70000000` (hence at most 2^31 - 1). The original claim's
remaining parts — non-decreasing video DTS and the 2^31 - 1 bound for
video packets of the ordinary copy path — are refuted by
`c1_counterexample`. -/
theorem c1_pts_dts (cfg : Cfg) (env : Env) (duration : Int) (hasAudio : Bool)
    (prev : Option SegmentInfo) (wst : Int) (out : Outcome)
    (h : recordSegment cfg env duration hasAudio prev wst = some out)
    (hw : ∀ e ∈ env.events, e.writeOk = true) :
    ∀ o ∈ out.written,
      (∀ t d, o.pkt.pts = some t → o.pkt.dts = some d → d ≤ t) ∧
      (o.stream = StreamKind.audio → ∀ d, o.pkt.dts = some d → d ≤ mp4DtsSafe) := by
  unfold recordSegment at h
  cases hpre : preLoopFail env hasAudio prev wst with
  | some o0 =>
    rw [hpre] at h
    have hs := preLoopFail_some env hasAudio prev wst o0 hpre
    injection h with h
    subst h
    intro o ho
    rw [hs.2.1] at ho
    simp at ho
  | none =>
    rw [hpre] at h
    rcases hrl : runLoop (loopCtxOf cfg env duration hasAudio prev)
        (initStateOf env prev wst) env.events with ⟨s1, outs, br⟩
    rw [hrl] at h
    cases br with
    | none => exact Option.noConfusion h
    | some r =>
      have h2 : some (loopOutcome env hasAudio prev s1 outs) = some out := h
      injection h2 with h2
      subst h2
      intro o ho
      have ho2 : o ∈ outs := ho
      have hg := runLoop_good (loopCtxOf cfg env duration hasAudio prev) env.events
        (initStateOf env prev wst) (fun _ => ⟨rfl, rfl⟩) hw o (by
          rw [hrl]
          exact ho2)
      exact ⟨hg.1, hg.2⟩

/-- Witness for `c1_pts_dts` at the `envC1` run. -/
theorem c1_witness :
    (∀ e ∈ envC1.events, e.writeOk = true) ∧
    ∀ o ∈ outC1.written,
      (∀ t d, o.pkt.pts = some t → o.pkt.dts = some d → d ≤ t) ∧
      (o.stream = StreamKind.audio → ∀ d, o.pkt.dts = some d → d ≤ mp4DtsSafe) :=
  ⟨by decide, c1_pts_dts cfg0 envC1 0 false none 0 outC1 rfl (by decide)⟩

/-- Packets from the ordinary video path are neither audio nor final. -/
theorem normalVideo_guarded (c : LoopCtx) (s : RecSt) (e : InEvent) (p : Pkt) :
    ∀ o ∈ (normalVideo c s e p).2.1, guardedPkt o := by
  intro o ho
  simp only [normalVideo, List.mem_singleton] at ho
  subst ho
  intro hcase d hd
  rcases hcase with hst | hfin
  · exact StreamKind.noConfusion hst
  · exact Bool.noConfusion hfin

/-- The final-keyframe write submits a guard-bounded packet. -/
theorem finalVideo_guarded (c : LoopCtx) (s : RecSt) (e : InEvent) (p : Pkt) :
    ∀ o ∈ (finalVideo c s e p).2.1, guardedPkt o := by
  intro o ho
  simp only [finalVideo, List.mem_singleton] at ho
  subst ho
  intro _ d hd
  rw [(synthVideoDuration_ts c.cfg _).2, (capVideoDuration_ts _).2] at hd
  exact overflowGuard_dts_le _ d hd

/-- Every guarded packet submitted by the video branch has a bounded DTS. -/
theorem stepVideo_guarded (c : LoopCtx) (s : RecSt) (e : InEvent) (p : Pkt) :
    ∀ o ∈ (stepVideo c s e p).2.1, guardedPkt o := by
  simp only [stepVideo]
  repeat' split
  all_goals first
    | exact fun o ho => absurd ho (List.not_mem_nil o)
    | exact normalVideo_guarded c _ e _
    | exact finalVideo_guarded c _ e _

/-- Every packet submitted by the audio branch has a bounded DTS. -/
theorem stepAudio_guarded (c : LoopCtx) (s : RecSt) (e : InEvent) (p : Pkt) :
    ∀ o ∈ (stepAudio c s e p).2.1, guardedPkt o := by
  simp only [stepAudio]
  split
  · exact fun o ho => absurd ho (List.not_mem_nil o)
  · intro o ho
    simp only [List.mem_singleton] at ho
    subst ho
    intro _ d hd
    rw [(synthAudioDuration_ts c.cfg _).2] at hd
    exact overflowGuard_dts_le _ d hd

/-- Every audio or final packet submitted in one iteration has a bounded
DTS. -/
theorem step_guarded (c : LoopCtx) (s : RecSt) (e : InEvent) :
    ∀ o ∈ (step c s e).2.1, guardedPkt o := by
  obtain ⟨w1, d1, hcf⟩ := checkFlags_shape c.duration s e
  simp only [step, hcf]
  repeat' split
  all_goals first
    | exact fun o ho => absurd ho (List.not_mem_nil o)
    | exact stepVideo_guarded c _ e _
    | exact stepAudio_guarded c _ e _

/-- Every audio or final packet submitted over a whole loop run has a
bounded DTS. -/
theorem runLoop_guarded (c : LoopCtx) :
    ∀ (evs : List InEvent) (s : RecSt), ∀ o ∈ (runLoop c s evs).2.1, guardedPkt o := by
  intro evs
  induction evs with
  | nil =>
    intro s o ho
    simp [runLoop] at ho
  | cons e es ih =>
    intro s o ho
    have hstep := step_guarded c s e
    simp only [runLoop] at ho
    rcases hse : step c s e with ⟨s1, outs, br⟩
    rw [hse] at ho hstep
    cases br with
    | some r => exact hstep o ho
    | none =>
      have ho2 : o ∈ outs ++ (runLoop c s1 es).2.1 := ho
      rcases List.mem_append.mp ho2 with hm | hm
      · exact hstep o hm
      · exact ih s1 o hm

/-- C2 (amended): the overflow guard is applied to every audio packet and,
for video, only to the final packet written by the AWAIT_FINAL_KEYFRAME
branch — not to video packets of the ordinary copying state (see
`c2_counterexample`). Where it applies: above 2^31 - 1 the DTS is reset to
1000 and the PTS is recomputed from the difference against the
already-reset DTS — leaving the PTS unchanged when it is at least 1000
(the previous PTS-DTS gap is not preserved) and setting it to 1000
otherwise; above 0x70000000 the DTS is reset to 1000 with the PTS forced
to 1001 (1000 when the PTS was invalid). Consequently every audio packet
and every final-branch video packet is submitted with DTS at most
0x70000000. -/
theorem c2_overflow_guard (cfg : Cfg) (env : Env) (duration : Int) (hasAudio : Bool)
    (prev : Option SegmentInfo) (wst : Int) (out : Outcome) (p : Pkt) (d0 : Int)
    (h : recordSegment cfg env duration hasAudio prev wst = some out)
    (hd : p.dts = some d0) :
    ((d0 > mp4DtsLimit →
        (overflowGuard p).dts = some 1000 ∧
        (overflowGuard p).pts
          = some (p.pts.elim 1000 fun t => if t - 1000 ≥ 0 then 1000 + (t - 1000) else 1000)) ∧
     (d0 ≤ mp4DtsLimit → d0 > mp4DtsSafe →
        (overflowGuard p).dts = some 1000 ∧
        (overflowGuard p).pts = some (p.pts.elim 1000 fun _ => 1001)) ∧
     (d0 ≤ mp4DtsSafe → overflowGuard p = p)) ∧
    (∀ o ∈ out.written, (o.stream = StreamKind.audio ∨ o.final = true) →
       ∀ d, o.pkt.dts = some d → d ≤ mp4DtsSafe) := by
  refine ⟨overflowGuard_char p d0 hd, ?_⟩
  unfold recordSegment at h
  cases hpre : preLoopFail env hasAudio prev wst with
  | some o0 =>
    rw [hpre] at h
    have hs := preLoopFail_some env hasAudio prev wst o0 hpre
    injection h with h
    subst h
    intro o ho
    rw [hs.2.1] at ho
    simp at ho
  | none =>
    rw [hpre] at h
    rcases hrl : runLoop (loopCtxOf cfg env duration hasAudio prev)
        (initStateOf env prev wst) env.events with ⟨s1, outs, br⟩
    rw [hrl] at h
    cases br with
    | none => exact Option.noConfusion h
    | some r =>
      have h2 : some (loopOutcome env hasAudio prev s1 outs) = some out := h
      injection h2 with h2
      subst h2
      intro o ho
      have ho2 : o ∈ outs := ho
      exact runLoop_guarded (loopCtxOf cfg env duration hasAudio prev) env.events
        (initStateOf env prev wst) o (by
          rw [hrl]
          exact ho2)

/-- Witness for `c2_overflow_guard` at the `envC2` run and the unguarded
packet it emitted. -/
theorem c2_witness :
    (pktC2.dts = some 2147483699 ∧ recordSegment cfg0 envC2 0 false none 0 = some outC2) ∧
    (((2147483699 : Int) > mp4DtsLimit →
        (overflowGuard pktC2).dts = some 1000 ∧
        (overflowGuard pktC2).pts
          = some (pktC2.pts.elim 1000 fun t => if t - 1000 ≥ 0 then 1000 + (t - 1000) else 1000)) ∧
     ((2147483699 : Int) ≤ mp4DtsLimit → (2147483699 : Int) > mp4DtsSafe →
        (overflowGuard pktC2).dts = some 1000 ∧
        (overflowGuard pktC2).pts = some (pktC2.pts.elim 1000 fun _ => 1001)) ∧
     ((2147483699 : Int) ≤ mp4DtsSafe → overflowGuard pktC2 = pktC2)) ∧
    (∀ o ∈ outC2.written, (o.stream = StreamKind.audio ∨ o.final = true) →
       ∀ d, o.pkt.dts = some d → d ≤ mp4DtsSafe) :=
  ⟨⟨rfl, rfl⟩,
   c2_overflow_guard cfg0 envC2 0 false none 0 outC2 pktC2 2147483699 rfl rfl⟩

/-- Clamping a value at zero equals `max`. -/
theorem clamp_eq_max (x : Int) : (if x < 0 then 0 else x) = max x 0 := by
  split <;> omega

/-- Segment-0 rebase outputs `(max(rel_dts, 0), max(rel_pts, 0))` on valid
timestamps. -/
theorem rebaseTs_seg0 (f g : Int) (p : Pkt) (d t : Int)
    (hd : p.dts = some d) (ht : p.pts = some t) :
    (rebaseTs 0 (some f) (some g) p).dts = some (max (d - f) 0) ∧
    (rebaseTs 0 (some f) (some g) p).pts = some (max (t - g) 0) := by
  simp [rebaseTs, hd, ht]
  constructor <;> split <;> omega

/-- The PTS >= DTS fix never changes the DTS. -/
theorem fixPtsDts_dts (p : Pkt) : (fixPtsDts p).dts = p.dts := by
  unfold fixPtsDts
  repeat' split
  all_goals rfl

/-- The PTS after the fix is either the original PTS or the DTS. -/
theorem fixPtsDts_pts (p : Pkt) : (fixPtsDts p).pts = p.pts ∨ (fixPtsDts p).pts = p.dts := by
  unfold fixPtsDts
  repeat' split
  all_goals simp_all

/-- Any pointwise bound on the timestamps survives the PTS >= DTS fix. -/
theorem fixPtsDts_bounds (P : Int → Prop) (q : Pkt)
    (hd : ∀ d, q.dts = some d → P d) (hp : ∀ t, q.pts = some t → P t) :
    (∀ d, (fixPtsDts q).dts = some d → P d) ∧ (∀ t, (fixPtsDts q).pts = some t → P t) := by
  have hdts := fixPtsDts_dts q
  rcases fixPtsDts_pts q with hpts | hpts
  · exact ⟨fun d h => hd d (hdts ▸ h), fun t h => hp t (hpts ▸ h)⟩
  · exact ⟨fun d h => hd d (hdts ▸ h), fun t h => hd t (hpts ▸ h)⟩

/-- Rebasing never invents a DTS. -/
theorem rebase_dts_none (segIdx : Int) (fd fp : Option Int) (p : Pkt) (hd : p.dts = none) :
    (rebaseTs segIdx fd fp p).dts = none := by
  rcases fd with _ | f <;> rcases hfp : fp with _ | g <;> rcases hpt : p.pts with _ | t0 <;>
    by_cases hseg : segIdx = 0 <;> simp [rebaseTs, hd, hpt, hseg]

/-- Segment-0 rebase against in-window first timestamps keeps valid outputs
in `[0, B]`. -/
theorem rebaseTs_seg0_bounds (L B f g : Int) (hf1 : L ≤ f) (hf2 : f ≤ L + B)
    (hg1 : L ≤ g) (hg2 : g ≤ L + B) (p : Pkt)
    (hdb : ∀ d, p.dts = some d → L ≤ d ∧ d ≤ L + B)
    (hpb : ∀ t, p.pts = some t → L ≤ t ∧ t ≤ L + B) :
    (∀ d, (rebaseTs 0 (some f) (some g) p).dts = some d → 0 ≤ d ∧ d ≤ B) ∧
    (∀ t, (rebaseTs 0 (some f) (some g) p).pts = some t → 0 ≤ t ∧ t ≤ B) := by
  constructor
  · intro d hd2
    rcases hpd : p.dts with _ | d0
    · rw [rebase_dts_none 0 _ _ p hpd] at hd2
      exact Option.noConfusion hd2
    · have hbx := hdb d0 hpd
      rcases hpt : p.pts with _ | t0 <;>
        simp only [rebaseTs, if_pos, hpd, hpt] at hd2 <;>
        simp at hd2 <;> omega
  · intro t ht2
    rcases hpt : p.pts with _ | t0
    · have hnone : (rebaseTs 0 (some f) (some g) p).pts = none := by
        rcases hpd : p.dts with _ | d0 <;> simp [rebaseTs, hpd, hpt]
      rw [hnone] at ht2
      exact Option.noConfusion ht2
    · have hbx := hpb t0 hpt
      rcases hpd : p.dts with _ | d0 <;>
        simp only [rebaseTs, if_pos, hpd, hpt] at ht2 <;>
        simp at ht2 <;> omega

/-- A packet whose first-captured DTS is its own DTS rebases to DTS 0. -/
theorem seg0_fresh_dts (p : Pkt) (d : Int) (hd : p.dts = some d) :
    (fixPtsDts (rebaseTs 0 (some d) (some (p.pts.getD d)) p)).dts = some 0 := by
  rw [fixPtsDts_dts]
  rcases hpt : p.pts with _ | t0 <;> simp [rebaseTs, hd, hpt]

/-- The overflow guard does nothing on a packet whose DTS is bounded by a
value below the safety threshold. -/
theorem guard_id_of_bounded (p : Pkt) (B : Int) (hBs : B ≤ mp4DtsSafe)
    (hb : ∀ d, p.dts = some d → d ≤ B) : overflowGuard p = p := by
  rcases hpd : p.dts with _ | d0
  · unfold overflowGuard
    rw [hpd]
  · exact (overflowGuard_char p d0 hpd).2.2 (le_trans (hb d0 hpd) hBs)

/-- `last_video_*` updates never touch the first-timestamp state. -/
theorem updateLastVideo_fields (s : RecSt) (q : Pkt) :
    (updateLastVideo s q).firstVideoDts = s.firstVideoDts ∧
    (updateLastVideo s q).firstVideoPts = s.firstVideoPts := by
  unfold updateLastVideo
  repeat' split
  all_goals exact ⟨rfl, rfl⟩

/-- The audio branch never touches the first-video state. -/
theorem stepAudio_videoFields (c : LoopCtx) (s : RecSt) (e : InEvent) (p : Pkt) :
    ((stepAudio c s e p).1).firstVideoDts = s.firstVideoDts ∧
    ((stepAudio c s e p).1).firstVideoPts = s.firstVideoPts := by
  simp only [stepAudio, updateLastAudio]
  repeat' split
  all_goals exact ⟨rfl, rfl⟩

/-- First-timestamp capture is a no-op when the packet has no DTS. -/
theorem initFirst_nodts (fd fp : Option Int) (p : Pkt) (hd : p.dts = none) :
    initFirstTs fd fp p = (fd, fp) := by
  rcases fd with _ | f <;> simp [initFirstTs, hd]

/-- First-timestamp capture is a no-op when a first DTS is already known. -/
theorem initFirst_keep (f : Int) (fp : Option Int) (p : Pkt) :
    initFirstTs (some f) fp p = (some f, fp) := by
  rcases hpd : p.dts with _ | d <;> simp [initFirstTs, hpd]

/-- First-timestamp capture on the first packet with a valid DTS. -/
theorem initFirst_fresh (fp : Option Int) (p : Pkt) (d : Int) (hd : p.dts = some d) :
    initFirstTs none fp p = (some d, some (p.pts.getD d)) := by
  simp [initFirstTs, hd]

/-- Rebasing never invents a PTS. -/
theorem rebase_pts_none (segIdx : Int) (fd fp : Option Int) (p : Pkt) (ht : p.pts = none) :
    (rebaseTs segIdx fd fp p).pts = none := by
  rcases fd with _ | f <;> rcases hfp : fp with _ | g <;> rcases hpd : p.dts with _ | d0 <;>
    by_cases hseg : segIdx = 0 <;> simp [rebaseTs, ht, hpd, hseg]

/-- Core facts about segment-0 video rebasing: boundedness of the output
timestamps, preservation of the first-timestamp window, and output DTS 0
on the packet that captures the first DTS. -/
theorem seg0_video_core (L B : Int) (fd fp : Option Int) (p : Pkt)
    (hdb : ∀ d, p.dts = some d → L ≤ d ∧ d ≤ L + B)
    (hpb : ∀ t, p.pts = some t → L ≤ t ∧ t ≤ L + B)
    (hlink : p.pts.isSome = true → p.dts.isSome = true)
    (hw1 : ∀ f, fd = some f → L ≤ f ∧ f ≤ L + B)
    (hw2 : ∀ f, fp = some f → L ≤ f ∧ f ≤ L + B)
    (hw3 : fp.isSome = fd.isSome) :
    (∀ d, (fixPtsDts (rebaseTs 0 (initFirstTs fd fp p).1 (initFirstTs fd fp p).2 p)).dts
        = some d → 0 ≤ d ∧ d ≤ B) ∧
    (∀ t, (fixPtsDts (rebaseTs 0 (initFirstTs fd fp p).1 (initFirstTs fd fp p).2 p)).pts
        = some t → 0 ≤ t ∧ t ≤ B) ∧
    (∀ f, (initFirstTs fd fp p).1 = some f → L ≤ f ∧ f ≤ L + B) ∧
    (∀ f, (initFirstTs fd fp p).2 = some f → L ≤ f ∧ f ≤ L + B) ∧
    (initFirstTs fd fp p).2.isSome = (initFirstTs fd fp p).1.isSome ∧
    ((initFirstTs fd fp p).1 = fd ∨
      (fd = none ∧
        (fixPtsDts (rebaseTs 0 (initFirstTs fd fp p).1 (initFirstTs fd fp p).2 p)).dts
          = some 0)) ∧
    ((initFirstTs fd fp p).1 = none →
      (fixPtsDts (rebaseTs 0 (initFirstTs fd fp p).1 (initFirstTs fd fp p).2 p)).dts
        = none) := by
  rcases hpd : p.dts with _ | d
  · -- no DTS: capture and both timestamps stay unchanged (PTS is none too)
    have hptn : p.pts = none := by
      rcases hpt : p.pts with _ | t0
      · rfl
      · have h2 := hlink (by rw [hpt]; rfl)
        rw [hpd] at h2
        exact Bool.noConfusion h2
    rw [initFirst_nodts fd fp p hpd]
    have hqd : (fixPtsDts (rebaseTs 0 fd fp p)).dts = none := by
      rw [fixPtsDts_dts]
      exact rebase_dts_none 0 fd fp p hpd
    have hqp : (fixPtsDts (rebaseTs 0 fd fp p)).pts = none := by
      rcases fixPtsDts_pts (rebaseTs 0 fd fp p) with hx | hx
      · rw [hx]
        exact rebase_pts_none 0 fd fp p hptn
      · rw [hx]
        exact rebase_dts_none 0 fd fp p hpd
    refine ⟨?_, ?_, hw1, hw2, hw3, Or.inl rfl, fun _ => hqd⟩
    · intro d hd2
      rw [hqd] at hd2
      exact Option.noConfusion hd2
    · intro t ht2
      rw [hqp] at ht2
      exact Option.noConfusion ht2
  · rcases hfd : fd with _ | f
    · -- fresh capture: first DTS is this packet's DTS
      have hfpn : fp = none := by
        rw [hfd] at hw3
        rcases hfp2 : fp with _ | g
        · rfl
        · rw [hfp2] at hw3
          exact Bool.noConfusion hw3
      rw [hfpn, initFirst_fresh none p d hpd]
      have hgw : L ≤ p.pts.getD d ∧ p.pts.getD d ≤ L + B := by
        rcases hpt : p.pts with _ | t0
        · simp only [hpt, Option.getD_none]
          exact hdb d hpd
        · simp only [hpt, Option.getD_some]
          exact hpb t0 hpt
      have hdw := hdb d hpd
      have hbase := rebaseTs_seg0_bounds L B d (p.pts.getD d) hdw.1 hdw.2 hgw.1 hgw.2 p hdb hpb
      have hfixb := fixPtsDts_bounds (fun x => 0 ≤ x ∧ x ≤ B) _ hbase.1 hbase.2
      refine ⟨hfixb.1, hfixb.2, ?_, ?_, rfl, ?_, ?_⟩
      · intro f2 hf2
        injection hf2 with hf2
        subst hf2
        exact hdw
      · intro f2 hf2
        injection hf2 with hf2
        subst hf2
        exact hgw
      · exact Or.inr ⟨rfl, seg0_fresh_dts p d hpd⟩
      · intro habs
        exact Option.noConfusion habs
    · -- first DTS already captured: window preserved
      have hfpg : ∃ g, fp = some g := by
        rw [hfd] at hw3
        rcases hfp2 : fp with _ | g
        · rw [hfp2] at hw3
          exact Bool.noConfusion hw3
        · exact ⟨g, rfl⟩
      obtain ⟨g, hg⟩ := hfpg
      rw [hg, initFirst_keep f (some g) p]
      have hfw := hw1 f hfd
      have hgw := hw2 g hg
      have hbase := rebaseTs_seg0_bounds L B f g hfw.1 hfw.2 hgw.1 hgw.2 p hdb hpb
      have hfixb := fixPtsDts_bounds (fun x => 0 ≤ x ∧ x ≤ B) _ hbase.1 hbase.2
      refine ⟨hfixb.1, hfixb.2, ?_, ?_, rfl, Or.inl rfl, ?_⟩
      · intro f2 hf2
        injection hf2 with hf2
        subst hf2
        exact hfw
      · intro f2 hf2
        injection hf2 with hf2
        subst hf2
        exact hgw
      · intro habs
        exact Option.noConfusion habs

/-- The ordinary video path stores the captured first timestamps. -/
theorem normalVideo_first (c : LoopCtx) (s : RecSt) (e : InEvent) (p : Pkt) :
    ((normalVideo c s e p).1).firstVideoDts
      = (initFirstTs s.firstVideoDts s.firstVideoPts p).1 ∧
    ((normalVideo c s e p).1).firstVideoPts
      = (initFirstTs s.firstVideoDts s.firstVideoPts p).2 := by
  simp only [normalVideo]
  constructor <;> split <;>
    first
      | exact (updateLastVideo_fields _ _).1
      | exact (updateLastVideo_fields _ _).2

/-- The final-keyframe write stores the captured first timestamps. -/
theorem finalVideo_first (c : LoopCtx) (s : RecSt) (e : InEvent) (p : Pkt) :
    ((finalVideo c s e p).1).firstVideoDts
      = (initFirstTs s.firstVideoDts s.firstVideoPts p).1 ∧
    ((finalVideo c s e p).1).firstVideoPts
      = (initFirstTs s.firstVideoDts s.firstVideoPts p).2 := by
  simp only [finalVideo]
  exact ⟨(updateLastVideo_fields _ _).1, (updateLastVideo_fields _ _).2⟩

/-- Assembly of the segment-0 facts for a video write branch: the branch
state stores the captured first timestamps and the submitted packet
carries the rebased-and-fixed timestamps. -/
theorem seg0_branch_c3 (L B : Int) (s : RecSt) (p : Pkt)
    (hdb : ∀ d, p.dts = some d → L ≤ d ∧ d ≤ L + B)
    (hpb : ∀ t, p.pts = some t → L ≤ t ∧ t ≤ L + B)
    (hlink : p.pts.isSome = true → p.dts.isSome = true)
    (hV : vWindow L B s) (st : RecSt) (P : Pkt) (b : Bool)
    (hfd : st.firstVideoDts = (initFirstTs s.firstVideoDts s.firstVideoPts p).1)
    (hfp : st.firstVideoPts = (initFirstTs s.firstVideoDts s.firstVideoPts p).2)
    (hPd : P.dts = (fixPtsDts (rebaseTs 0 (initFirstTs s.firstVideoDts s.firstVideoPts p).1
        (initFirstTs s.firstVideoDts s.firstVideoPts p).2 p)).dts)
    (hPp : P.pts = (fixPtsDts (rebaseTs 0 (initFirstTs s.firstVideoDts s.firstVideoPts p).1
        (initFirstTs s.firstVideoDts s.firstVideoPts p).2 p)).pts) :
    (∀ o ∈ [(⟨StreamKind.video, P, b⟩ : OutPkt)], vBound B o) ∧
    vWindow L B st ∧
    (st.firstVideoDts = s.firstVideoDts ∨
      (s.firstVideoDts = none ∧
        ∃ o, ([(⟨StreamKind.video, P, b⟩ : OutPkt)]).find? isVidTs = some o ∧
          o.pkt.dts = some 0)) ∧
    (st.firstVideoDts = none →
      ([(⟨StreamKind.video, P, b⟩ : OutPkt)]).find? isVidTs = none) := by
  have hcore := seg0_video_core L B s.firstVideoDts s.firstVideoPts p hdb hpb hlink
    hV.1 hV.2.1 hV.2.2
  refine ⟨?_, ⟨?_, ?_, ?_⟩, ?_, ?_⟩
  · intro o ho
    rw [List.mem_singleton] at ho
    subst ho
    intro _
    refine ⟨fun d hd2 => ?_, fun t ht2 => ?_⟩
    · rw [hPd] at hd2
      exact hcore.1 d hd2
    · rw [hPp] at ht2
      exact hcore.2.1 t ht2
  · intro f hf
    rw [hfd] at hf
    exact hcore.2.2.1 f hf
  · intro f hf
    rw [hfp] at hf
    exact hcore.2.2.2.1 f hf
  · rw [hfd, hfp]
    exact hcore.2.2.2.2.1
  · rcases hcore.2.2.2.2.2.1 with hkeep | ⟨hnone, hzero⟩
    · exact Or.inl (hfd.trans hkeep)
    · refine Or.inr ⟨hnone, ⟨⟨StreamKind.video, P, b⟩, ?_, ?_⟩⟩
      · have htrue : isVidTs ⟨StreamKind.video, P, b⟩ = true := by
          simp [isVidTs, hPd, hzero]
        simp [htrue]
      · rw [hPd]
        exact hzero
  · intro hn
    rw [hfd] at hn
    have hqd := hcore.2.2.2.2.2.2 hn
    have hfalse : isVidTs ⟨StreamKind.video, P, b⟩ = false := by
      simp [isVidTs, hPd, hqd]
    simp [hfalse]

/-- Lifting the branch facts from the gate-updated state back to the
iteration's input state. -/
theorem c3_lift {L B : Int} {s sb : RecSt} (hg1 : sb.firstVideoDts = s.firstVideoDts)
    (res : RecSt × List OutPkt × Option Int)
    (h : (∀ o ∈ res.2.1, vBound B o) ∧ vWindow L B res.1 ∧
      (res.1.firstVideoDts = sb.firstVideoDts ∨
        (sb.firstVideoDts = none ∧
          ∃ o, res.2.1.find? isVidTs = some o ∧ o.pkt.dts = some 0)) ∧
      (res.1.firstVideoDts = none → res.2.1.find? isVidTs = none)) :
    (∀ o ∈ res.2.1, vBound B o) ∧ vWindow L B res.1 ∧
    (res.1.firstVideoDts = s.firstVideoDts ∨
      (s.firstVideoDts = none ∧
        ∃ o, res.2.1.find? isVidTs = some o ∧ o.pkt.dts = some 0)) ∧
    (res.1.firstVideoDts = none → res.2.1.find? isVidTs = none) := by
  refine ⟨h.1, h.2.1, ?_, h.2.2.2⟩
  rcases h.2.2.1 with hk | ⟨h0, hex⟩
  · exact Or.inl (hk.trans hg1)
  · refine Or.inr ⟨?_, hex⟩
    rw [← hg1]
    exact h0

/-- Segment-0 facts for the ordinary video path. -/
theorem normalVideo_c3 (c : LoopCtx) (hseg : c.segIdx = 0) (L B : Int)
    (s : RecSt) (e : InEvent) (p : Pkt)
    (hdb : ∀ d, p.dts = some d → L ≤ d ∧ d ≤ L + B)
    (hpb : ∀ t, p.pts = some t → L ≤ t ∧ t ≤ L + B)
    (hlink : p.pts.isSome = true → p.dts.isSome = true)
    (hV : vWindow L B s) :
    (∀ o ∈ (normalVideo c s e p).2.1, vBound B o) ∧
    vWindow L B (normalVideo c s e p).1 ∧
    ((normalVideo c s e p).1.firstVideoDts = s.firstVideoDts ∨
      (s.firstVideoDts = none ∧
        ∃ o, ((normalVideo c s e p).2.1).find? isVidTs = some o ∧ o.pkt.dts = some 0)) ∧
    ((normalVideo c s e p).1.firstVideoDts = none →
      ((normalVideo c s e p).2.1).find? isVidTs = none) := by
  have hfirst := normalVideo_first c s e p
  exact seg0_branch_c3 L B s p hdb hpb hlink hV (normalVideo c s e p).1
    (synthVideoDuration c.cfg (fixPtsDts (rebaseTs c.segIdx
      (initFirstTs s.firstVideoDts s.firstVideoPts p).1
      (initFirstTs s.firstVideoDts s.firstVideoPts p).2 p)))
    false hfirst.1 hfirst.2
    (by rw [(synthVideoDuration_ts c.cfg _).2, hseg])
    (by rw [(synthVideoDuration_ts c.cfg _).1, hseg])

/-- Segment-0 facts for the final-keyframe write: under the window bounds
the overflow guard is the identity. -/
theorem finalVideo_c3 (c : LoopCtx) (hseg : c.segIdx = 0) (L B : Int) (hBs : B ≤ mp4DtsSafe)
    (s : RecSt) (e : InEvent) (p : Pkt)
    (hdb : ∀ d, p.dts = some d → L ≤ d ∧ d ≤ L + B)
    (hpb : ∀ t, p.pts = some t → L ≤ t ∧ t ≤ L + B)
    (hlink : p.pts.isSome = true → p.dts.isSome = true)
    (hV : vWindow L B s) :
    (∀ o ∈ (finalVideo c s e p).2.1, vBound B o) ∧
    vWindow L B (finalVideo c s e p).1 ∧
    ((finalVideo c s e p).1.firstVideoDts = s.firstVideoDts ∨
      (s.firstVideoDts = none ∧
        ∃ o, ((finalVideo c s e p).2.1).find? isVidTs = some o ∧ o.pkt.dts = some 0)) ∧
    ((finalVideo c s e p).1.firstVideoDts = none →
      ((finalVideo c s e p).2.1).find? isVidTs = none) := by
  have hfirst := finalVideo_first c s e p
  have hcore := seg0_video_core L B s.firstVideoDts s.firstVideoPts p hdb hpb hlink
    hV.1 hV.2.1 hV.2.2
  have hguard : overflowGuard (fixPtsDts (rebaseTs 0
        (initFirstTs s.firstVideoDts s.firstVideoPts p).1
        (initFirstTs s.firstVideoDts s.firstVideoPts p).2 p))
      = fixPtsDts (rebaseTs 0
        (initFirstTs s.firstVideoDts s.firstVideoPts p).1
        (initFirstTs s.firstVideoDts s.firstVideoPts p).2 p) :=
    guard_id_of_bounded _ B hBs (fun d hd2 => (hcore.1 d hd2).2)
  exact seg0_branch_c3 L B s p hdb hpb hlink hV (finalVideo c s e p).1
    (synthVideoDuration c.cfg (capVideoDuration (overflowGuard (fixPtsDts (rebaseTs c.segIdx
      (initFirstTs s.firstVideoDts s.firstVideoPts p).1
      (initFirstTs s.firstVideoDts s.firstVideoPts p).2 p)))))
    true hfirst.1 hfirst.2
    (by rw [(synthVideoDuration_ts c.cfg _).2, (capVideoDuration_ts _).2, hseg, hguard])
    (by rw [(synthVideoDuration_ts c.cfg _).1, (capVideoDuration_ts _).1, hseg, hguard])

/-- The audio branch submits no video packet. -/
theorem stepAudio_c3 (B : Int) (c : LoopCtx) (s : RecSt) (e : InEvent) (p : Pkt) :
    (∀ o ∈ (stepAudio c s e p).2.1, vBound B o) ∧
    ((stepAudio c s e p).2.1).find? isVidTs = none := by
  simp only [stepAudio]
  split
  · exact ⟨by simp, rfl⟩
  · constructor
    · intro o ho
      simp only [List.mem_singleton] at ho
      subst ho
      intro habs
      exact StreamKind.noConfusion habs
    · simp [isVidTs]

/-- Segment-0 facts for one video packet of the loop. -/
theorem stepVideo_c3 (c : LoopCtx) (hseg : c.segIdx = 0) (L B : Int) (hBs : B ≤ mp4DtsSafe)
    (s : RecSt) (e : InEvent) (p : Pkt)
    (hdb : ∀ d, p.dts = some d → L ≤ d ∧ d ≤ L + B)
    (hpb : ∀ t, p.pts = some t → L ≤ t ∧ t ≤ L + B)
    (hlink : p.pts.isSome = true → p.dts.isSome = true)
    (hV : vWindow L B s) :
    (∀ o ∈ (stepVideo c s e p).2.1, vBound B o) ∧
    vWindow L B (stepVideo c s e p).1 ∧
    ((stepVideo c s e p).1.firstVideoDts = s.firstVideoDts ∨
      (s.firstVideoDts = none ∧
        ∃ o, ((stepVideo c s e p).2.1).find? isVidTs = some o ∧ o.pkt.dts = some 0)) ∧
    ((stepVideo c s e p).1.firstVideoDts = none →
      ((stepVideo c s e p).2.1).find? isVidTs = none) := by
  simp only [stepVideo]
  split
  · exact ⟨by simp, hV, Or.inl rfl, fun _ => rfl⟩
  · rename_i s1 heq
    have hg := stepVideo_gate s s1 e p c heq
    have hV1 : vWindow L B s1 := by
      refine ⟨?_, ?_, ?_⟩
      · rw [hg.2.1]
        exact hV.1
      · rw [hg.2.2.1]
        exact hV.2.1
      · rw [hg.2.2.1, hg.2.1]
        exact hV.2.2
    split
    · split
      · split
        · exact c3_lift hg.2.1 _
            (finalVideo_c3 c hseg L B hBs { s1 with waitingStartTime := e.now } e p
              hdb hpb hlink hV1)
        · exact c3_lift hg.2.1 _
            (normalVideo_c3 c hseg L B { s1 with waitingStartTime := e.now } e p
              hdb hpb hlink hV1)
      · split
        · exact c3_lift hg.2.1 _ (finalVideo_c3 c hseg L B hBs s1 e p hdb hpb hlink hV1)
        · exact c3_lift hg.2.1 _ (normalVideo_c3 c hseg L B s1 e p hdb hpb hlink hV1)
    · exact c3_lift hg.2.1 _ (normalVideo_c3 c hseg L B s1 e p hdb hpb hlink hV1)

/-- Segment-0 facts for one iteration of the loop. -/
theorem step_c3 (c : LoopCtx) (hseg : c.segIdx = 0) (L B : Int) (hBs : B ≤ mp4DtsSafe)
    (s : RecSt) (e : InEvent) (he : vEvWindow L B e) (hV : vWindow L B s) :
    (∀ o ∈ (step c s e).2.1, vBound B o) ∧
    vWindow L B (step c s e).1 ∧
    ((step c s e).1.firstVideoDts = s.firstVideoDts ∨
      (s.firstVideoDts = none ∧
        ∃ o, ((step c s e).2.1).find? isVidTs = some o ∧ o.pkt.dts = some 0)) ∧
    ((step c s e).1.firstVideoDts = none → ((step c s e).2.1).find? isVidTs = none) := by
  obtain ⟨w1, d1, hcf⟩ := checkFlags_shape c.duration s e
  have hV0 : vWindow L B { s with waiting := w1, shutdownDetected := d1 } := hV
  simp only [step, hcf]
  split
  · exact ⟨by simp, hV0, Or.inl rfl, fun _ => rfl⟩
  · exact ⟨by simp, hV0, Or.inl rfl, fun _ => rfl⟩
  · exact ⟨by simp, hV0, Or.inl rfl, fun _ => rfl⟩
  · split
    · rename_i rr p hre sk hsk
      have hp := he p hre hsk
      exact stepVideo_c3 c hseg L B hBs _ e p hp.1 hp.2.1 hp.2.2 hV0
    · split
      · rename_i rr p hre sk hsk ha
        have ha3 := stepAudio_c3 B c { s with waiting := w1, shutdownDetected := d1 } e p
        have hfields := stepAudio_videoFields c { s with waiting := w1, shutdownDetected := d1 } e p
        refine ⟨ha3.1, ⟨?_, ?_, ?_⟩, Or.inl hfields.1, fun _ => ha3.2⟩
        · rw [hfields.1]
          exact hV0.1
        · rw [hfields.2]
          exact hV0.2.1
        · rw [hfields.1, hfields.2]
          exact hV0.2.2
      · exact ⟨by simp, hV0, Or.inl rfl, fun _ => rfl⟩
    · exact ⟨by simp, hV0, Or.inl rfl, fun _ => rfl⟩

/-- Segment-0 facts for a whole loop run: all video outputs are bounded by
the window width, and if no first video DTS was captured at entry, the
first video packet submitted with a valid DTS has DTS 0. -/
theorem runLoop_c3 (c : LoopCtx) (hseg : c.segIdx = 0) (L B : Int) (hBs : B ≤ mp4DtsSafe) :
    ∀ (evs : List InEvent) (s : RecSt), (∀ e ∈ evs, vEvWindow L B e) → vWindow L B s →
      (∀ o ∈ (runLoop c s evs).2.1, vBound B o) ∧
      (s.firstVideoDts = none →
        ∀ o, ((runLoop c s evs).2.1).find? isVidTs = some o → o.pkt.dts = some 0) := by
  intro evs
  induction evs with
  | nil =>
    intro s _ _
    exact ⟨by simp [runLoop], fun _ o ho => Option.noConfusion ho⟩
  | cons e es ih =>
    intro s hev hV
    have hstep := step_c3 c hseg L B hBs s e (hev e (by simp)) hV
    simp only [runLoop]
    rcases hse : step c s e with ⟨s1, outs, br⟩
    rw [hse] at hstep
    cases br with
    | some r =>
      refine ⟨hstep.1, ?_⟩
      intro hfn o hfo
      rcases hstep.2.2.1 with hk | ⟨h0, o2, ho2, hz⟩
      · have h4 := hstep.2.2.2 (by rw [hk]; exact hfn)
        rw [h4] at hfo
        exact Option.noConfusion hfo
      · rw [ho2] at hfo
        injection hfo with hfo
        subst hfo
        exact hz
    | none =>
      have hrest := ih s1 (fun e2 he2 => hev e2 (by simp [he2])) hstep.2.1
      constructor
      · intro o ho
        have ho2 : o ∈ outs ++ (runLoop c s1 es).2.1 := ho
        rcases List.mem_append.mp ho2 with hm | hm
        · exact hstep.1 o hm
        · exact hrest.1 o hm
      · intro hfn o hfo
        have hfo2 : (outs ++ (runLoop c s1 es).2.1).find? isVidTs = some o := hfo
        rw [List.find?_append] at hfo2
        rcases hstep.2.2.1 with hk | ⟨h0, o2, ho2, hz⟩
        · have hs1n : s1.firstVideoDts = none := by
            rw [hk]
            exact hfn
          have h4 := hstep.2.2.2 hs1n
          rw [h4, Option.none_or] at hfo2
          exact hrest.2 hs1n o hfo2
        · rw [ho2, Option.or_some] at hfo2
          injection hfo2 with h
          subst h
          exact hz

/-- C3: in a segment-0 invocation of `record_segment` (NULL
`prev_segment_info`), the rebaser computes `(max(rel_dts, 0),
max(rel_pts, 0))`; over any run whose video input timestamps lie in a
window `[L, L+B]` with `B` at most the safety threshold — in particular a
window starting near 2^31 — all submitted video timestamps lie in
`[0, B]`, and the first video packet submitted with a valid DTS has
output DTS 0. -/
theorem c3_first_segment (cfg : Cfg) (env : Env) (duration : Int) (hasAudio : Bool)
    (wst : Int) (out : Outcome) (L B : Int)
    (h : recordSegment cfg env duration hasAudio none wst = some out)
    (hBs : B ≤ mp4DtsSafe)
    (hin : ∀ e ∈ env.events, vEvWindow L B e) :
    (∀ f g p d t, p.dts = some d → p.pts = some t →
        (rebaseTs 0 (some f) (some g) p).dts = some (max (d - f) 0) ∧
        (rebaseTs 0 (some f) (some g) p).pts = some (max (t - g) 0)) ∧
    (∀ o ∈ out.written, vBound B o) ∧
    (∀ o, (out.written.find? isVidTs) = some o → o.pkt.dts = some 0) := by
  refine ⟨fun f g p d t hd ht => rebaseTs_seg0 f g p d t hd ht, ?_⟩
  unfold recordSegment at h
  cases hpre : preLoopFail env hasAudio none wst with
  | some o0 =>
    rw [hpre] at h
    have hs := preLoopFail_some env hasAudio none wst o0 hpre
    injection h with h
    subst h
    constructor
    · intro o ho
      rw [hs.2.1] at ho
      simp at ho
    · intro o hfo
      rw [hs.2.1] at hfo
      exact Option.noConfusion hfo
  | none =>
    rw [hpre] at h
    rcases hrl : runLoop (loopCtxOf cfg env duration hasAudio none)
        (initStateOf env none wst) env.events with ⟨s1, outs, br⟩
    rw [hrl] at h
    cases br with
    | none => exact Option.noConfusion h
    | some r =>
      have h2 : some (loopOutcome env hasAudio none s1 outs) = some out := h
      injection h2 with h2
      subst h2
      have hrun := runLoop_c3 (loopCtxOf cfg env duration hasAudio none) rfl L B hBs
        env.events (initStateOf env none wst) hin
        ⟨fun f hf => Option.noConfusion hf, fun f hf => Option.noConfusion hf, rfl⟩
      rw [hrl] at hrun
      exact ⟨fun o ho => hrun.1 o ho, fun o hfo => hrun.2 rfl o hfo⟩

/-- Witness for `c3_first_segment`: a segment-0 run whose first video DTS
is 2^31 - 1000. -/
theorem c3_witness :
    ((1000 : Int) ≤ mp4DtsSafe ∧
      recordSegment cfg0 envC3 0 false none 0 = some outC3 ∧
      (∀ e ∈ envC3.events, vEvWindow 2147482648 1000 e)) ∧
    ((∀ f g p d t, p.dts = some d → p.pts = some t →
        (rebaseTs 0 (some f) (some g) p).dts = some (max (d - f) 0) ∧
        (rebaseTs 0 (some f) (some g) p).pts = some (max (t - g) 0)) ∧
     (∀ o ∈ outC3.written, vBound 1000 o) ∧
     (∀ o, (outC3.written.find? isVidTs) = some o → o.pkt.dts = some 0)) := by
  have hwin : ∀ e ∈ envC3.events, vEvWindow 2147482648 1000 e := by
    intro e he
    simp only [envC3, envOk, List.mem_cons, List.not_mem_nil, or_false] at he
    rcases he with rfl | rfl | rfl
    · intro p hre _
      injection hre with hre
      subst hre
      refine ⟨fun d hd => ?_, fun t ht => ?_, fun _ => rfl⟩
      · injection hd with hd
        subst hd
        decide
      · injection ht with ht
        subst ht
        decide
    · intro p hre _
      injection hre with hre
      subst hre
      refine ⟨fun d hd => ?_, fun t ht => ?_, fun _ => rfl⟩
      · injection hd with hd
        subst hd
        decide
      · injection ht with ht
        subst ht
        decide
    · intro p hre _
      exact ReadRes.noConfusion hre
  exact ⟨⟨by decide, rfl, hwin⟩,
    c3_first_segment cfg0 envC3 0 false 0 outC3 2147482648 1000 rfl (by decide) hwin⟩

end Mp4Writer
